import Mathlib

/-!
Verification development for the kwpsync repository.

This file shallowly embeds the schema-driven row-mapping, address-resolution
and project-insert workflows of `src/realtime-sync.js`, the template-cloning
insert workflow of the queue worker variant (`src/unnamed/part_001`), and the
streaming bulk table copier of `src/clone-mssql-to-docker.js`.  JavaScript
values are embedded as the inductive `JVal` (JSON scalars and objects plus
`Date` timestamps; JS numbers are restricted to integers, which covers every
value the modelled code paths construct or compare), JS exceptions as the
closed error variant `SyncError`, and the MSSQL database state reachable by
the workflows as explicit record types threaded through the functions.
-/

namespace KwpSync

/-- Embedded JavaScript value: JSON scalars, objects (assoc lists in insertion
order, as produced by `JSON.parse`), and `Date` objects carried as integer
timestamps. -/
inductive JVal where
  | null
  | str (s : String)
  | num (n : Int)
  | bool (b : Bool)
  | date (t : Int)
  | obj (fields : List (String × JVal))
  deriving Repr

/-- A database row / mapped column-value object: column name to value, in
insertion order (the shape `mapPayloadToColumns` builds in `data`). -/
abbrev Row := List (String × JVal)

mutual

/-- Structural equality of embedded values, modelling JS `===` on the
primitives the workflows compare (strings, numbers, booleans, null).  On
objects JS `===` is reference equality; the workflows only ever compare
column values read back from payloads/rows, for which structural equality of
the embedding is the faithful rendering. -/
def JVal.beq : JVal → JVal → Bool
  | .null, .null => true
  | .str a, .str b => a == b
  | .num a, .num b => a == b
  | .bool a, .bool b => a == b
  | .date a, .date b => a == b
  | .obj a, .obj b => JVal.beqFields a b
  | _, _ => false

/-- Pointwise equality of object field lists. -/
def JVal.beqFields : List (String × JVal) → List (String × JVal) → Bool
  | [], [] => true
  | (k, v) :: r, (k2, v2) :: r2 => k == k2 && JVal.beq v v2 && JVal.beqFields r r2
  | _, _ => false

end

instance : BEq JVal := ⟨JVal.beq⟩

/-- JS truthiness of an embedded value (`Boolean(v)`); `NaN` does not occur in
the model. -/
def truthy : JVal → Bool
  | .null => false
  | .str s => s ≠ ""
  | .num n => n ≠ 0
  | .bool b => b
  | .date _ => true
  | .obj _ => true

/-- Whether the value is a JS object in the sense of `typeof v === 'object'`
with `!v` false, as tested by the payload-shape guards (`Date` objects never
reach those guards from JSON payloads, so they are not treated as objects
here). -/
def isObj : JVal → Bool
  | .obj _ => true
  | _ => false

/-- Whitespace characters recognised by the embedded trimming/splitting
helpers (the ASCII subset of JS `\\s` that occurs in the modelled data). -/
def isWsChar (c : Char) : Bool :=
  c = ' ' ∨ c = '\t' ∨ c = '\n' ∨ c = '\r'

/-- JS `toLowerCase` restricted to the ASCII identifiers the workflows lower
(kernel-reducible char-list implementation). -/
def jsLower (s : String) : String :=
  String.mk (s.toList.map Char.toLower)

/-- `s.startsWith(p)` (kernel-reducible char-list implementation). -/
def strStarts (s p : String) : Bool :=
  p.toList.isPrefixOf s.toList

/-- JS `trim` (kernel-reducible char-list implementation). -/
def strTrim (s : String) : String :=
  String.mk (((s.toList.dropWhile isWsChar).reverse.dropWhile isWsChar).reverse)

/-- Numeric value of a digit run. -/
def digitsVal (l : List Char) : Nat :=
  l.foldl (fun a c => a * 10 + (c.toNat - '0'.toNat)) 0

/-- Decimal integer parse with optional sign, `none` on any other shape
(the JS `Number(...)` inputs that occur on the modelled paths). -/
def parseIntStr (s : String) : Option Int :=
  match s.toList with
  | [] => none
  | '-' :: ds => if ds ≠ [] ∧ ds.all (fun c => '0' ≤ c ∧ c ≤ '9')
      then some (-(digitsVal ds : Int)) else none
  | '+' :: ds => if ds ≠ [] ∧ ds.all (fun c => '0' ≤ c ∧ c ≤ '9')
      then some ((digitsVal ds : Int)) else none
  | ds => if ds.all (fun c => '0' ≤ c ∧ c ≤ '9')
      then some ((digitsVal ds : Int)) else none

/-- JS `String(v)` for the values the workflows stringify. -/
def jsToString : JVal → String
  | .null => "null"
  | .str s => s
  | .num n => toString n
  | .bool b => if b then "true" else "false"
  | .date t => "Date(" ++ toString t ++ ")"
  | .obj _ => "[object Object]"

/-- JS `Number(v)` restricted to the integral values the workflows feed it;
returns `none` for `NaN`.  String parsing accepts optional-sign decimal
integers (the payload fields coerced on the modelled paths), with the empty /
blank string giving `0` as in JS. -/
def jsToNumber : JVal → Option Int
  | .null => some 0
  | .bool b => some (if b then 1 else 0)
  | .num n => some n
  | .date t => some t
  | .obj _ => none
  | .str s => let t := strTrim s; if t = "" then some 0 else parseIntStr t

/-- Property lookup `v[k]` on an object; `none` models `undefined` (also the
result of `v?.k` on non-objects). -/
def jget (v : JVal) (k : String) : Option JVal :=
  match v with
  | .obj fs => fs.lookup k
  | _ => none

/-- Property lookup defaulting `undefined` to the embedded `null` (the two are
interchangeable for every `== null` / truthiness test the code performs). -/
def jgetD (v : JVal) (k : String) : JVal :=
  (jget v k).getD .null

/-- Optional-chained two-level lookup `v?.k1?.k2`. -/
def jget2 (v : JVal) (k1 k2 : String) : Option JVal :=
  (jget v k1).bind (fun w => jget w k2)

/-- Row field read, `undefined` collapsed to null (`data[col]`). -/
def rget (r : Row) (k : String) : JVal :=
  (r.lookup k).getD .null

/-- `Object.prototype.hasOwnProperty.call(r, k)`. -/
def rhas (r : Row) (k : String) : Bool :=
  (r.lookup k).isSome

/-- JS property assignment `r[k] = v`: replaces the value at the first
occurrence of `k` (objects have unique keys), else appends. -/
def rset : Row → String → JVal → Row
  | [], k, v => [(k, v)]
  | (k2, v2) :: r, k, v =>
      if k2 == k then (k2, v) :: r else (k2, v2) :: rset r k v

/-- Closed variant set for every exception raised by the embedded workflows,
one constructor per distinct `throw new Error(...)` site; the original German
message text is recoverable from the constructor and its arguments. -/
inductive SyncError where
  /-- "{label} ist zu lang (max {maxLen})." (strict `fitString`). -/
  | tooLong (label : String) (maxLen : Int)
  /-- "{label} ist keine Zahl." (`toNumber`). -/
  | notANumber (label : String)
  /-- "{what} fehlt." (several missing-field sites). -/
  | missing (what : String)
  /-- "Unbekanntes Feld in {label}: {key}" (`mapPayloadToColumns`). -/
  | unknownField (label : String) (key : String)
  /-- "Feld nicht schreibbar in {label}: {col}" (`mapPayloadToColumns`). -/
  | notWritable (label : String) (col : String)
  /-- "Nutze entweder \"projekt\" ODER Root-Felder, nicht beides."
  (`splitProjectPayload`). -/
  | bothProjektAndRoot
  /-- "Adresse muss PLZ und Ort enthalten." (`ensureOrt`). -/
  | plzOrtMissing
  /-- "{label}.AdrNrGes ist zu lang (max 24)." (`ensureAdresse`). -/
  | adrTooLong (label : String)
  /-- "{label} braucht plz + ort oder ortId." (`ensureAdresse`). -/
  | needsPlzOrt (label : String)
  /-- "{what} passt nicht zur ... AdrNrGes." (`insertProjektDirect`
  address-reference consistency checks). -/
  | mismatch (what : String)
  /-- "Template-Projekt nicht gefunden oder Insert fehlgeschlagen."
  (`insertProjektFromTemplate`). -/
  | templateNotFound
  deriving Repr, DecidableEq

/-- One location row of `dbo.adrOrte` (the columns the workflows read and
write). -/
structure OrtRow where
  ortId : Int
  land : String
  plz : String
  plzn : String
  ort : String
  ortTyp : Int
  deriving Repr

/-- The database state visible to the insert workflows: the three tables they
read or write.  Project and address rows are kept as generic column-value
rows (exactly the objects the dynamic mapper builds); `adrOrte` has a fixed
shape in both variants. -/
structure Db where
  projekt : List Row
  adressen : List Row
  orte : List OrtRow
  deriving Repr

namespace RealtimeSync

/-- Column metadata row returned by the `sys.columns` catalog query of
`getTableColumns` (`max_length` is in bytes, `-1` meaning MAX, exactly as in
the catalog). -/
structure ColumnMeta where
  column_name : String
  data_type : String
  max_length : Int
  precision : Nat := 18
  scale : Nat := 0
  is_nullable : Bool := true
  is_identity : Bool := false
  is_computed : Bool := false
  default_definition : Option String := none
  deriving Repr, DecidableEq

/-- `fitString` of `realtime-sync.js` (strict): null/empty becomes null, a
string form longer than a truthy `maxLen` throws, otherwise the string form
is returned. -/
def fitString (v : JVal) (maxLen : Option Int) (label : String) :
    Except SyncError (Option String) :=
  match v with
  | .null => .ok none
  | .str "" => .ok none
  | _ =>
    match maxLen with
    | some m =>
      if m ≠ 0 ∧ m < ((jsToString v).length : Int) then .error (.tooLong label m)
      else .ok (some (jsToString v))
    | none => .ok (some (jsToString v))

/-- JS `s.slice(0, e)` from index 0: a negative end counts from the end of
the string. -/
def jsSlice0 (s : String) (e : Int) : String :=
  if e < 0 then s.take (max ((s.length : Int) + e) 0).toNat else s.take e.toNat

/-- `truncateString` restricted to the non-null strings `generateAdrNrGes`
feeds it: a falsy (zero) `maxLen` performs no truncation at all, mirroring
`maxLen ? s.slice(0, maxLen) : s`. -/
def truncateStr (s : String) (maxLen : Int) : String :=
  if maxLen = 0 then s else jsSlice0 s maxLen

/-- `toNumber` of `realtime-sync.js`: null/empty becomes null, a non-finite
parse throws. -/
def toNumber (v : JVal) (label : String) : Except SyncError (Option Int) :=
  match v with
  | .null => .ok none
  | .str "" => .ok none
  | _ =>
    match jsToNumber v with
    | some n => .ok (some n)
    | none => .error (.notANumber label)

/-- `normalizeValueForColumn`: dispatch on the lowercased native type; string
types validate length strictly via `fitString` (character budget for the
`n`-prefixed types is the byte length halved), numeric types parse, `bit`
coerces to 0/1, anything else passes through unchanged. -/
def normalizeValueForColumn (value : JVal) (meta : ColumnMeta) :
    Except SyncError JVal :=
  match value with
  | .null => .ok .null
  | _ =>
    if jsLower meta.data_type = "nvarchar" ∨ jsLower meta.data_type = "varchar" ∨
        jsLower meta.data_type = "nchar" ∨ jsLower meta.data_type = "char" then
      (fitString value
        (if meta.max_length = -1 then none
         else if strStarts (jsLower meta.data_type) "n" then some (meta.max_length / 2)
         else some meta.max_length) meta.column_name).map
        (fun o => match o with | none => .null | some s => .str s)
    else if jsLower meta.data_type = "int" ∨ jsLower meta.data_type = "smallint" ∨
        jsLower meta.data_type = "tinyint" ∨ jsLower meta.data_type = "bigint" then
      (toNumber value meta.column_name).map
        (fun o => match o with | none => .null | some n => .num n)
    else if jsLower meta.data_type = "float" ∨ jsLower meta.data_type = "real" ∨
        jsLower meta.data_type = "decimal" ∨ jsLower meta.data_type = "money" then
      (toNumber value meta.column_name).map
        (fun o => match o with | none => .null | some n => .num n)
    else if jsLower meta.data_type = "bit" then
      match value with
      | .bool b => .ok (.num (if b then 1 else 0))
      | _ =>
        (toNumber value meta.column_name).map
          (fun o => match o with
            | some n => .num (if n ≠ 0 then 1 else 0)
            | none => .num 0)
    else
      .ok value

/-- The pair of maps `buildColumnMaps` constructs: lowercased name to column
name, and column name to metadata. -/
structure ColumnMaps where
  byLower : List (String × String)
  metaByName : List (String × ColumnMeta)
  deriving Repr

/-- Assoc-list upsert with JS `Map.set` semantics (replace in place, else
append). -/
def mapSet {β : Type} : List (String × β) → String → β → List (String × β)
  | [], k, v => [(k, v)]
  | (k2, v2) :: r, k, v =>
      if k2 == k then (k2, v) :: r else (k2, v2) :: mapSet r k v

/-- `buildColumnMaps`. -/
def buildColumnMaps (columns : List ColumnMeta) : ColumnMaps :=
  columns.foldl
    (fun acc col =>
      { byLower := mapSet acc.byLower (jsLower col.column_name) col.column_name,
        metaByName := mapSet acc.metaByName col.column_name col })
    ⟨[], []⟩

/-- `isInsertableColumn`: a missing metadata entry, identity, computed,
`timestamp` and the `Offline_Sync_Id` column are not insertable. -/
def isInsertableColumn : Option ColumnMeta → Bool
  | none => false
  | some meta =>
      !(meta.is_identity || meta.is_computed ||
        meta.data_type == "timestamp" || meta.column_name == "Offline_Sync_Id")

/-- `getRequiredColumns`: insertable, NOT NULL, and without a (truthy)
default definition. -/
def getRequiredColumns (columns : List ColumnMeta) : List String :=
  ((columns.filter (fun col => isInsertableColumn (some col))).filter
    (fun col => !col.is_nullable && (col.default_definition.getD "") == "")).map
    (fun col => col.column_name)

/-- Loop body list of `mapPayloadToColumns`: process the raw payload entries
in insertion order against the column maps, accumulating the mapped data
object. -/
def mapPayloadGo (maps : ColumnMaps) (allowKeys : List String) (label : String) :
    List (String × JVal) → Row → Except SyncError Row
  | [], data => .ok data
  | (key, value) :: rest, data =>
    if allowKeys.contains key then mapPayloadGo maps allowKeys label rest data
    else
      match maps.byLower.lookup (jsLower key) with
      | none => .error (.unknownField label key)
      | some columnName =>
        if !isInsertableColumn (maps.metaByName.lookup columnName) then
          .error (.notWritable label columnName)
        else
          match maps.metaByName.lookup columnName with
          | none => .error (.notWritable label columnName)
          | some m =>
            match normalizeValueForColumn value m with
            | .error e => .error e
            | .ok v => mapPayloadGo maps allowKeys label rest (rset data columnName v)

/-- `mapPayloadToColumns` (the raw payload given as its entry list); returns
the mapped data object; the column maps are recomputable by the caller. -/
def mapPayloadToColumns (raw : List (String × JVal)) (columns : List ColumnMeta)
    (allowKeys : List String) (label : String) : Except SyncError Row :=
  mapPayloadGo (buildColumnMaps columns) allowKeys label raw []

/-- `ADR_NR_MAX`. -/
def ADR_NR_MAX : Nat := 24

/-- `ADR_LEGAL_FORMS`. -/
def ADR_LEGAL_FORMS : List String :=
  ["GMBH", "MBH", "KG", "UG", "AG", "EK", "GMBHCO", "CO"]

/-- Single-character step of `normalizeAdrBase`'s replacement chain.  The
source applies the replacements sequentially (`&` to " UND ", umlauts and ß
transliterated, every other non-alphanumeric run to a space, then
`toUpperCase`); since each replacement's output consists only of characters
the later stages leave intact (upper-case letters and spaces), the chain is
equivalent to this per-character map followed by whitespace tokenising. -/
def adrChar (c : Char) : String :=
  if c = '&' then " UND "
  else if c = 'Ä' ∨ c = 'ä' then "AE"
  else if c = 'Ö' ∨ c = 'ö' then "OE"
  else if c = 'Ü' ∨ c = 'ü' then "UE"
  else if c = 'ß' then "SS"
  else if ('A' ≤ c ∧ c ≤ 'Z') ∨ ('0' ≤ c ∧ c ≤ '9') then String.singleton c
  else if 'a' ≤ c ∧ c ≤ 'z' then String.singleton c.toUpper
  else " "

/-- Space-splitting of a character list (the `trim().split(/\\s+/)` +
`filter(Boolean)` tokenising, whose effect equals splitting on single spaces
and dropping empty tokens). -/
def splitSpacesAux : List Char → List Char → List String
  | [], acc => [String.mk acc.reverse]
  | c :: rest, acc =>
      if c = ' ' then String.mk acc.reverse :: splitSpacesAux rest []
      else splitSpacesAux rest (c :: acc)

/-- `normalizeAdrBase`: transliterate, tokenise, drop legal-form tokens
(unless that would drop everything), join with underscores. -/
def normalizeAdrBase (value : JVal) : String :=
  let raw := jsToString (if truthy value then value else .str "")
  let cleaned := String.join (raw.toList.map adrChar)
  let tokens := (splitSpacesAux cleaned.toList []).filter (· ≠ "")
  if tokens.isEmpty then ""
  else
    let filtered := tokens.filter (fun token => !ADR_LEGAL_FORMS.contains token)
    String.intercalate "_" (if filtered.isEmpty then tokens else filtered)

/-- `buildAdrBase`: normalize the first truthy of name, strasse, vorname. -/
def buildAdrBase (address : JVal) : String :=
  if !isObj address then ""
  else
    let primary :=
      if truthy (jgetD address "name") then jgetD address "name"
      else if truthy (jgetD address "strasse") then jgetD address "strasse"
      else if truthy (jgetD address "vorname") then jgetD address "vorname"
      else .str ""
    normalizeAdrBase primary

/-- Longest trailing digit run of a string (`/(\d+)$/`). -/
def trailingDigits (s : String) : String :=
  String.mk (((s.toList.reverse).takeWhile (fun c => '0' ≤ c ∧ c ≤ '9')).reverse)

/-- `Number.parseInt` applied to the trailing digit run, `none` when there is
no run.  Exact for every id respecting the 24-character length invariant
(at most 15 digits, well below 2^53). -/
def parseTrailingNat (s : String) : Option Nat :=
  match (trailingDigits s).toList with
  | [] => none
  | ds => some (digitsVal ds)

/-- The `AdrNrGes` strings of the address table as read by the prefix query
(`row.AdrNrGes || ''`). -/
def adrIds (db : Db) : List String :=
  db.adressen.map (fun r =>
    let v := rget r "AdrNrGes"
    if truthy v then jsToString v else "")

/-- `generateAdrNrGes`: derive a candidate id from the normalized display
name, the role-tag suffix and max(existing numeric suffix)+1 over ids with
the same prefix, re-deriving the base budget when the candidate overflows
`ADR_NR_MAX`.  The SQL `LIKE @Prefix` pre-filter is subsumed by the exact
`startsWith` check the source applies to every returned row. -/
def generateAdrNrGes (db : Db) (address : JVal) (typeTag : String) : String :=
  let baseRaw := buildAdrBase address
  let sfx := "_" ++ typeTag
  let maxDigits : Int := 4
  let maxBaseLen : Int := (ADR_NR_MAX : Int) - sfx.length - maxDigits
  let base := truncateStr (if baseRaw = "" then "ADRESSE" else baseRaw) maxBaseLen
  let pfx := base ++ sfx
  let maxNum := (adrIds db).foldl
    (fun acc v =>
      if !strStarts v pfx then acc
      else match parseTrailingNat v with
        | some n => if n > acc then n else acc
        | none => acc)
    0
  let nextNum := maxNum + 1
  let candidate := pfx ++ toString nextNum
  if (candidate.length : Int) > (ADR_NR_MAX : Int) then
    let allowedBaseLen : Int := (ADR_NR_MAX : Int) - sfx.length - (toString nextNum).length
    let trimmedBase := truncateStr base allowedBaseLen
    trimmedBase ++ sfx ++ toString nextNum
  else candidate

/-- `ensureAdrNrGes`: mutate the address payload with a generated `AdrNrGes`
unless one (in either casing) is already supplied; rendered functionally as
returning the possibly-extended object. -/
def ensureAdrNrGes (db : Db) (raw : JVal) (typeTag : String) : JVal :=
  match raw with
  | .obj fs =>
    if rhas fs "AdrNrGes" || rhas fs "adrNrGes" then raw
    else .obj (rset fs "AdrNrGes" (.str (generateAdrNrGes db raw typeTag)))
  | _ => raw

/-- The two module-level metadata cache slots (`adrAdressenColumnsCache`,
`projektColumnsCache`). -/
structure ColCache where
  adr : Option (List ColumnMeta)
  projekt : Option (List ColumnMeta)
  deriving Repr, DecidableEq

/-- `getTableColumns` over an abstract catalog (table name to its column
metadata): read the slot selected by the table name, else query the catalog
and populate the slot for the two known table names.  The returned boolean
records whether a catalog query was issued. -/
def getTableColumns (catalog : String → List ColumnMeta) (c : ColCache)
    (tableName : String) : List ColumnMeta × ColCache × Bool :=
  let cache := if tableName = "dbo.adrAdressen" then c.adr else c.projekt
  match cache with
  | some meta => (meta, c, false)
  | none =>
    let meta := catalog tableName
    let c2 :=
      if tableName = "dbo.adrAdressen" then { c with adr := some meta }
      else if tableName = "dbo.Projekt" then { c with projekt := some meta }
      else c
    (meta, c2, true)

/-- `splitProjectPayload`: root fields minus the reserved keys, mutually
exclusive with a structured `projekt` sub-object. -/
def splitProjectPayload (payload : JVal) : Except SyncError (List (String × JVal)) :=
  let reserved : List String := ["adresse", "rechnungAdresse", "bauherrAdresse", "projekt"]
  let entries := match payload with | .obj fs => fs | _ => []
  let rootProject := entries.filter (fun kv => !reserved.contains kv.1)
  if truthy (jgetD payload "projekt") ∧ rootProject.length ≠ 0 then
    .error .bothProjektAndRoot
  else
    match jget payload "projekt" with
    | some p => if truthy p ∧ isObj p then .ok (match p with | .obj fs => fs | _ => []) else .ok rootProject
    | none => .ok rootProject

/-- The side-channel values `extractAddressExtras` pulls out of an address
payload. -/
structure Extras where
  sameAsAdresse : Option Bool := none
  plz : Option String := none
  ort : Option String := none
  land : Option String := none
  plzn : Option String := none
  ortTyp : Option Int := none
  ortId : Option Int := none
  deriving Repr

/-- `extractAddressExtras`. -/
def extractAddressExtras (fs : Row) : Except SyncError Extras := do
  let e0 : Extras := {}
  let e1 := if rhas fs "sameAsAdresse"
    then { e0 with sameAsAdresse := some (!(rget fs "sameAsAdresse" == JVal.bool false)) }
    else e0
  let e2 ← if rhas fs "plz"
    then do pure { e1 with plz := (← fitString (rget fs "plz") (some 16) "plz") }
    else pure e1
  let e3 ← if rhas fs "ort"
    then do pure { e2 with ort := (← fitString (rget fs "ort") (some 80) "ort") }
    else pure e2
  let e4 ← if rhas fs "land"
    then do pure { e3 with land := (← fitString (rget fs "land") (some 3) "land") }
    else pure e3
  let e5 ← if rhas fs "plzn"
    then do pure { e4 with plzn := (← fitString (rget fs "plzn") (some 16) "plzn") }
    else pure e4
  let e6 ← if rhas fs "ortTyp"
    then do pure { e5 with ortTyp := (← toNumber (rget fs "ortTyp") "ortTyp") }
    else pure e5
  let e7 ← if rhas fs "ortId"
    then do pure { e6 with ortId := (← toNumber (rget fs "ortId") "ortId") }
    else pure e6
  pure e7

/-- Truthiness of an optional string (the `!extras.plz`-style guards; the
extras are produced by `fitString`, so `some ""` never occurs, but the guard
is modelled in full). -/
def osTruthy : Option String → Bool
  | none => false
  | some s => s ≠ ""

/-- `ensureOrt` of `realtime-sync.js`: resolve the location by (PLZ, Ort) or
insert a fresh row keyed max(OrtID)+1. -/
def nextOrtId (db : Db) : Int :=
  (match db.orte with
    | [] => 0
    | r :: rs => rs.foldl (fun a x => max a x.ortId) r.ortId) + 1

def ensureOrt (db : Db) (plz ort land plzn : Option String) (ortTyp : Option Int) :
    Except SyncError (Int × Db) :=
  if !osTruthy plz || !osTruthy ort then .error .plzOrtMissing
  else
    match db.orte.find? (fun r => r.plz == plz.getD "" && r.ort == ort.getD "") with
    | some r => .ok (r.ortId, db)
    | none =>
      .ok (nextOrtId db,
        { db with orte := db.orte ++
          [⟨nextOrtId db, (if osTruthy land then land.getD "" else "DE"), plz.getD "",
            (if osTruthy plzn then plzn.getD "" else plz.getD ""), ort.getD "",
            ortTyp.getD 0⟩] })

/-- The seven payload keys `ensureAdresse` diverts to `extractAddressExtras`. -/
def adresseAllowKeys : List String :=
  ["sameAsAdresse", "plz", "ort", "land", "plzn", "ortTyp", "ortId"]

/-- Appending the freshly mapped address row to `dbo.adrAdressen`. -/
def adrInsert (db : Db) (data : Row) : Db :=
  { db with adressen := db.adressen ++ [data] }

/-- `ensureAdresse` of `realtime-sync.js`: map the address payload onto the
live `dbo.adrAdressen` column set, short-circuit on an existing `AdrNrGes`,
otherwise validate required fields, resolve the location and insert the
mapped row.  Returns the `AdrNrGes` value (as mapped) and the new state. -/
def ensureAdresse (db : Db) (adrMeta : List ColumnMeta) (raw : JVal)
    (baseLabel : String) : Except SyncError (JVal × Db) :=
  match raw with
  | .obj fs =>
    match extractAddressExtras fs with
    | .error e => .error e
    | .ok extras =>
      match mapPayloadToColumns fs adrMeta adresseAllowKeys baseLabel with
      | .error e => .error e
      | .ok data =>
        if !truthy (rget data "AdrNrGes") then .error (.missing (baseLabel ++ ".AdrNrGes"))
        else if (jsToString (rget data "AdrNrGes")).length > ADR_NR_MAX then
          .error (.adrTooLong baseLabel)
        else if db.adressen.any (fun r => rget r "AdrNrGes" == rget data "AdrNrGes") then
          .ok (rget data "AdrNrGes", db)
        else
          match (getRequiredColumns adrMeta).find? (fun col => rget data col == JVal.null) with
          | some col => .error (.missing (baseLabel ++ "." ++ col))
          | none =>
            if !truthy (rget data "Name") then .error (.missing (baseLabel ++ ".Name"))
            else if !truthy (rget data "Strasse") then .error (.missing (baseLabel ++ ".Strasse"))
            else if !(rget data "Ort" == JVal.null) then
              .ok (rget data "AdrNrGes", adrInsert db data)
            else
              match extras.ortId with
              | some n => .ok (rget data "AdrNrGes", adrInsert db (rset data "Ort" (.num n)))
              | none =>
                if !osTruthy extras.plz || !osTruthy extras.ort then
                  .error (.needsPlzOrt baseLabel)
                else
                  match ensureOrt db extras.plz extras.ort extras.land extras.plzn extras.ortTyp with
                  | .error e => .error e
                  | .ok (oid, db2) =>
                    .ok (rget data "AdrNrGes", adrInsert db2 (rset data "Ort" (.num oid)))
  | _ => .error (.missing baseLabel)

/-- The SQL existence probe `SELECT 1 FROM dbo.Projekt WHERE ProjNr = @ProjNr`
(a NULL parameter matches nothing). -/
def projExists (db : Db) (pnv : JVal) : Bool :=
  !(pnv == JVal.null) && db.projekt.any (fun r => rget r "ProjNr" == pnv)

/-- Payload-validation prefix of `insertProjektDirect`: split the payload,
map it onto the project columns, and require a truthy (or literal-zero, then
still rejected as falsy) project number.  Pure in the payload and metadata. -/
def directValidate (projektMeta : List ColumnMeta) (payload : JVal) :
    Except SyncError Row :=
  match splitProjectPayload payload with
  | .error e => .error e
  | .ok projectRaw =>
    match mapPayloadToColumns projectRaw projektMeta [] "projekt" with
    | .error e => .error e
    | .ok pd0 =>
      if !truthy (if truthy (rget pd0 "ProjNr") || rget pd0 "ProjNr" == JVal.num 0
                  then rget pd0 "ProjNr" else JVal.null)
      then .error (.missing "projnr")
      else .ok pd0

/-- The base address payload with its `AdrNrGes` ensured (generated against
the current state when absent). -/
def directBaseRaw (db : Db) (payload : JVal) : JVal :=
  ensureAdrNrGes db (jgetD payload "adresse") "PROJADR"

/-- `rechnungSame` of `insertProjektDirect`: an absent or non-object billing
sub-object defaults to the primary address; a present one is "same" only when
it sets `sameAsAdresse` to exactly `true`. -/
def rechnungSameDirect (payload : JVal) : Bool :=
  if !(truthy (jgetD payload "rechnungAdresse") && isObj (jgetD payload "rechnungAdresse"))
  then true
  else jget2 payload "rechnungAdresse" "sameAsAdresse" == some (JVal.bool true)

/-- `bauherrSame` of `insertProjektDirect`, same rule for the site role. -/
def bauherrSameDirect (payload : JVal) : Bool :=
  if !(truthy (jgetD payload "bauherrAdresse") && isObj (jgetD payload "bauherrAdresse"))
  then true
  else jget2 payload "bauherrAdresse" "sameAsAdresse" == some (JVal.bool true)

/-- The billing-role address payload after role defaulting and id
generation. -/
def directRechRaw (db : Db) (payload : JVal) : JVal :=
  if rechnungSameDirect payload then directBaseRaw db payload
  else ensureAdrNrGes db (jgetD payload "rechnungAdresse") "RECHADR"

/-- The site-role address payload after role defaulting and id generation. -/
def directBauRaw (db : Db) (payload : JVal) : JVal :=
  if bauherrSameDirect payload then directBaseRaw db payload
  else ensureAdrNrGes db (jgetD payload "bauherrAdresse") "BAUHRADR"

/-- The address-resolution phase of `insertProjektDirect`: require the base
address, then resolve primary, billing and site in that fixed order,
threading the state. -/
def directAddresses (adrMeta : List ColumnMeta) (db : Db) (payload : JVal) :
    Except SyncError (JVal × JVal × JVal × Db) :=
  if !truthy (jgetD payload "adresse") then .error (.missing "adresse")
  else
    match ensureAdresse db adrMeta (directBaseRaw db payload) "adresse" with
    | .error e => .error e
    | .ok (projAdr, db1) =>
      match ensureAdresse db1 adrMeta (directRechRaw db payload) "rechnungAdresse" with
      | .error e => .error e
      | .ok (rechAdr, db2) =>
        match ensureAdresse db2 adrMeta (directBauRaw db payload) "bauherrAdresse" with
        | .error e => .error e
        | .ok (bauAdr, db3) => .ok (projAdr, rechAdr, bauAdr, db3)

/-- The four timestamp defaults filled when absent from the payload. -/
def dateDefaults (pd : Row) (now : Int) : Row :=
  let pd2 := if rhas pd "Createdate" then pd else rset pd "Createdate" (.date now)
  let pd3 := if rhas pd2 "Editdate" then pd2 else rset pd2 "Editdate" (.date now)
  let pd4 := if rhas pd3 "ProjAnlage" then pd3 else rset pd3 "ProjAnlage" (.date now)
  if rhas pd4 "AuftragsDatum" then pd4 else rset pd4 "AuftragsDatum" (.date now)

/-- The assembly phase of `insertProjektDirect`: enforce the three
address-reference consistency checks, write the resolved references, fill the
timestamp defaults, and enforce the required project columns. -/
def directAssemble (projektMeta : List ColumnMeta) (pd0 : Row)
    (projAdr rechAdr bauAdr : JVal) (now : Int) : Except SyncError Row :=
  if truthy (rget pd0 "ProjAdr") && !(rget pd0 "ProjAdr" == projAdr) then
    .error (.mismatch "ProjAdr")
  else if truthy (rget pd0 "RechAdr") && !(rget pd0 "RechAdr" == rechAdr) then
    .error (.mismatch "RechAdr")
  else if truthy (rget pd0 "BauHrAdr") && !(rget pd0 "BauHrAdr" == bauAdr) then
    .error (.mismatch "BauHrAdr")
  else
    match (getRequiredColumns projektMeta).find? (fun col =>
        rget (dateDefaults
          (rset (rset (rset pd0 "ProjAdr" projAdr) "RechAdr" rechAdr) "BauHrAdr" bauAdr)
          now) col == JVal.null) with
    | some col => .error (.missing ("projekt." ++ col))
    | none => .ok (dateDefaults
        (rset (rset (rset pd0 "ProjAdr" projAdr) "RechAdr" rechAdr) "BauHrAdr" bauAdr) now)

/-- Everything `insertProjektDirect` does before its `ProjNr` existence
check, in source order: validation, address resolution, and assembly. -/
def directPrepare (projektMeta adrMeta : List ColumnMeta) (db : Db)
    (payload : JVal) (now : Int) : Except SyncError (Row × Db) :=
  match directValidate projektMeta payload with
  | .error e => .error e
  | .ok pd0 =>
    match directAddresses adrMeta db payload with
    | .error e => .error e
    | .ok (projAdr, rechAdr, bauAdr, db3) =>
      match directAssemble projektMeta pd0 projAdr rechAdr bauAdr now with
      | .error e => .error e
      | .ok pd5 => .ok (pd5, db3)

/-- Result triple of the direct insert workflow: status, the project number
value, and the resulting database state (the transaction commits on both the
`exists` and the `inserted` outcome). -/
structure DirectResult where
  status : String
  projnr : JVal
  db : Db
  deriving Repr

/-- `insertProjektDirect`: run the preparation phase, then either
short-circuit with status `exists` or append the prepared project row. -/
def insertProjektDirect (projektMeta adrMeta : List ColumnMeta) (db : Db)
    (payload : JVal) (now : Int) : Except SyncError DirectResult :=
  match directPrepare projektMeta adrMeta db payload now with
  | .error e => .error e
  | .ok (pd, db3) =>
    if projExists db3 (rget pd "ProjNr") then .ok ⟨"exists", rget pd "ProjNr", db3⟩
    else .ok ⟨"inserted", rget pd "ProjNr",
      { db3 with projekt := db3.projekt ++ [pd] }⟩

/-- One row of the Supabase queue as seen by the consumer: the row `id` used
for dedup (absent/empty modelling falsy ids) and the fallback id inside the
payload that `handleQueueItem` consults. -/
structure QRow where
  id : Option String
  payloadId : Option String := none
  deriving Repr, DecidableEq

/-- Truthiness of an optional queue id. -/
def idTruthy : Option String → Bool
  | none => false
  | some s => s ≠ ""

/-- The in-process consumer state: the pending `queue` array, the `enqueuedIds`
dedup set (a duplicate-free list), and the row currently inside
`handleQueueItem`, if any. -/
structure QState where
  queue : List QRow
  enqueuedIds : List String
  current : Option QRow
  deriving Repr, DecidableEq

/-- `enqueue`: ignore rows without a truthy id, drop ids already tracked,
otherwise record the id and push the row. -/
def enqueue (s : QState) (row : QRow) : QState :=
  match row.id with
  | none => s
  | some i =>
    if i = "" then s
    else if s.enqueuedIds.contains i then s
    else { s with enqueuedIds := s.enqueuedIds ++ [i], queue := s.queue ++ [row] }

/-- The `processQueue` loop shifting the next row into `handleQueueItem`
(the `processing` flag makes the consumer single-threaded: at most one row is
being handled, modelled by `current`). -/
def beginItem (s : QState) : QState :=
  match s.current with
  | some _ => s
  | none =>
    match s.queue with
    | [] => s
    | r :: rest => { s with queue := rest, current := some r }

/-- Completion of `handleQueueItem` (any outcome): the `finally` block deletes
the item's id (`row.id || payload?.id`) from `enqueuedIds` when truthy. -/
def finishItem (s : QState) : QState :=
  match s.current with
  | none => s
  | some r =>
    let hid := if idTruthy r.id then r.id else r.payloadId
    let ids := if idTruthy hid then s.enqueuedIds.erase (hid.getD "") else s.enqueuedIds
    { s with current := none, enqueuedIds := ids }

/-- Events the queue subsystem reacts to. -/
inductive QEvent where
  | enq (row : QRow)
  | begin
  | finish

/-- Event step of the queue subsystem. -/
def qstep (s : QState) : QEvent → QState
  | .enq r => enqueue s r
  | .begin => beginItem s
  | .finish => finishItem s

/-- Initial consumer state. -/
def qInit : QState := ⟨[], [], none⟩

/-- States reachable by the queue subsystem. -/
inductive QReach : QState → Prop where
  | init : QReach qInit
  | step {s : QState} (h : QReach s) (e : QEvent) : QReach (qstep s e)

/-- The ids of the rows waiting in the queue. -/
def queueIds (s : QState) : List String :=
  s.queue.filterMap (fun r => r.id)

end RealtimeSync

namespace TemplateSync

/-- `fitString` of the template-cloning worker (truncating, never failing):
null/empty becomes null, otherwise the string form sliced to a truthy
`maxLen` (the worker only passes non-negative literals). -/
def fitString (v : JVal) (maxLen : Nat) : Option String :=
  match v with
  | .null => none
  | .str "" => none
  | _ =>
    let s := jsToString v
    some (if maxLen = 0 then s else s.take maxLen)

/-- `toFloat`: null/empty or a non-finite parse becomes null (the model
restricts JS numbers to integers). -/
def toFloat (v : JVal) : Option Int :=
  match v with
  | .null => none
  | .str "" => none
  | _ => jsToNumber v

/-- `buildAdrKey`: strip whitespace from the stringified base, reserve room
for the `_`-joined suffix within 24 characters.  A base that collapses to the
empty string makes the truncating `fitString` return null, which JS string
concatenation renders as the literal "null". -/
def buildAdrKey (base : JVal) (sfx : String) : String :=
  let clean := String.mk (((jsToString (if truthy base then base else .str "")).toList).filter
    (fun c => c ≠ ' ' ∧ c ≠ '\t' ∧ c ≠ '\n' ∧ c ≠ '\r'))
  let sfxPart := if sfx ≠ "" then "_" ++ sfx else ""
  let maxBaseLen := 24 - sfxPart.length
  (match fitString (.str clean) maxBaseLen with
    | some s => s
    | none => "null") ++ sfxPart

/-- The normalized address record `normalizeAddress` produces. -/
structure AddressRec where
  adrNrGes : Option String
  name : Option String
  vorname : Option String
  strasse : Option String
  plz : Option String
  ort : Option String
  rechnungsmail : Option String
  land : Option String
  deriving Repr, DecidableEq

/-- `normalizeAddress` (null for a non-object payload). -/
def normalizeAddress (raw : JVal) (fallbackKey : JVal) : Option AddressRec :=
  match raw with
  | .obj fs => some
    { adrNrGes := fitString (if truthy (rget fs "adrNrGes") then rget fs "adrNrGes" else fallbackKey) 24,
      name := fitString (rget fs "name") 100,
      vorname := fitString (rget fs "vorname") 100,
      strasse := fitString (rget fs "strasse") 80,
      plz := fitString (rget fs "plz") 16,
      ort := fitString (rget fs "ort") 80,
      rechnungsmail := fitString (rget fs "rechnungsmail") 510,
      land := fitString (if truthy (rget fs "land") then rget fs "land" else .str "DE") 3 }
  | _ => none

/-- `ensureOrt` of the template worker: like the direct variant but with
`PLZN := PLZ` and `OrtTyp := 0` fixed. -/
def ensureOrt (db : Db) (address : AddressRec) : Except SyncError (Int × Db) :=
  if !RealtimeSync.osTruthy address.plz || !RealtimeSync.osTruthy address.ort then
    .error .plzOrtMissing
  else
    match db.orte.find? (fun r =>
        r.plz == address.plz.getD "" && r.ort == address.ort.getD "") with
    | some r => .ok (r.ortId, db)
    | none =>
      .ok (RealtimeSync.nextOrtId db,
        { db with orte := db.orte ++
          [⟨RealtimeSync.nextOrtId db,
            (if RealtimeSync.osTruthy address.land then address.land.getD "" else "DE"),
            address.plz.getD "", address.plz.getD "", address.ort.getD "", 0⟩] })

/-- Optional string to stored column value (`null` for absent). -/
def osVal : Option String → JVal
  | none => .null
  | some s => .str s

/-- `ensureAdresse` of the template worker: resolve the location, then return
the existing address key or insert the fixed eight-column row. -/
def ensureAdresse (db : Db) (address : Option AddressRec) :
    Except SyncError (String × Db) :=
  match address with
  | none => .error (.missing "AdrNrGes")
  | some a =>
    match a.adrNrGes with
    | none => .error (.missing "AdrNrGes")
    | some key =>
      match ensureOrt db a with
      | .error e => .error e
      | .ok (ortId, db2) =>
        if db2.adressen.any (fun r => rget r "AdrNrGes" == JVal.str key) then
          .ok (key, db2)
        else
          .ok (key, { db2 with adressen := db2.adressen ++
            [[("AdrNrGes", JVal.str key), ("Name", osVal a.name), ("Vorname", osVal a.vorname),
              ("Strasse", osVal a.strasse), ("Ort", JVal.num ortId),
              ("RechnungsMail", osVal a.rechnungsmail), ("MahnSperre", JVal.num 0),
              ("MwStPflicht", JVal.num 1)]] })

/-- The bind parameters of the template `INSERT ... SELECT`. -/
structure TParams where
  projnr : String
  projBezeichnung : JVal
  projAdr : String
  rechAdr : String
  bauAdr : String
  now : Int
  abtNr : Option Int
  sachBearb : Option String
  auftragStatus : Option Int
  createUser : Option String
  editUser : Option String
  deriving Repr

/-- SQL `COALESCE` of an optional parameter over a template column value. -/
def coalesce (p : Option JVal) (t : JVal) : JVal :=
  match p with
  | some v => if v == JVal.null then t else v
  | none => t

/-- Value of a template-row column referenced by the `SELECT` list (NULL when
the template row lacks the column). -/
def tcol (t : Row) (c : String) : JVal := rget t c

/-- The row the template `INSERT ... SELECT TOP 1` builds: the six override
columns, the three `COALESCE`d payload fields, the `@Now` timestamps, the
`-1` contact references, and every remaining column copied verbatim from the
template row, in the column order of the statement. -/
def templateInsertRow (t : Row) (p : TParams) : Row :=
  [("ProjNr", .str p.projnr),
   ("ProjAnlage", .date p.now),
   ("ProjAdr", .str p.projAdr),
   ("RechAdr", .str p.rechAdr),
   ("ArchAdr", .null),
   ("BauHrAdr", .str p.bauAdr),
   ("KoArt", tcol t "KoArt"),
   ("RohstPr", tcol t "RohstPr"),
   ("LohnVorg", tcol t "LohnVorg"),
   ("VerarbVoreinst", tcol t "VerarbVoreinst"),
   ("Sperrvermerk", tcol t "Sperrvermerk"),
   ("Beginn", tcol t "Beginn"),
   ("FertigStellung", tcol t "FertigStellung"),
   ("AuftragStatus", coalesce (p.auftragStatus.map JVal.num) (tcol t "AuftragStatus")),
   ("CheckDate", .date p.now),
   ("AbtNr", coalesce (p.abtNr.map JVal.num) (tcol t "AbtNr")),
   ("Waehrung", tcol t "Waehrung"),
   ("AuftragsNr", tcol t "AuftragsNr"),
   ("SachBearb", coalesce (p.sachBearb.map JVal.str) (tcol t "SachBearb")),
   ("CheckOut", tcol t "CheckOut"),
   ("eCheck", tcol t "eCheck"),
   ("doPosition", tcol t "doPosition"),
   ("doAufmass", tcol t "doAufmass"),
   ("doBstLager", tcol t "doBstLager"),
   ("doPosMat", tcol t "doPosMat"),
   ("upsize_ts", tcol t "upsize_ts"),
   ("FestPreis", tcol t "FestPreis"),
   ("FestPreisMaterial", tcol t "FestPreisMaterial"),
   ("FestPreisLohn", tcol t "FestPreisLohn"),
   ("Info1", tcol t "Info1"),
   ("Info2", tcol t "Info2"),
   ("Info3", tcol t "Info3"),
   ("MittelLohn", tcol t "MittelLohn"),
   ("SubProjekt", tcol t "SubProjekt"),
   ("Auftraggeber", tcol t "Auftraggeber"),
   ("Kategorie", tcol t "Kategorie"),
   ("AuftragsDatum", tcol t "AuftragsDatum"),
   ("AuftragsSumme", tcol t "AuftragsSumme"),
   ("AAuftragStatus", tcol t "AAuftragStatus"),
   ("BAuftragStatus", tcol t "BAuftragStatus"),
   ("Vertrieb", tcol t "Vertrieb"),
   ("Passwort", tcol t "Passwort"),
   ("SymbolIndex", tcol t "SymbolIndex"),
   ("Direktlieferung", tcol t "Direktlieferung"),
   ("Benutzer1", tcol t "Benutzer1"),
   ("Benutzer2", tcol t "Benutzer2"),
   ("Benutzer3", tcol t "Benutzer3"),
   ("Benutzer4", tcol t "Benutzer4"),
   ("Benutzer5", tcol t "Benutzer5"),
   ("Benutzer6", tcol t "Benutzer6"),
   ("Benutzer7", tcol t "Benutzer7"),
   ("Benutzer8", tcol t "Benutzer8"),
   ("Benutzer9", tcol t "Benutzer9"),
   ("Benutzer10", tcol t "Benutzer10"),
   ("Submissionsdatum", tcol t "Submissionsdatum"),
   ("Fertigstellungsgrad", tcol t "Fertigstellungsgrad"),
   ("Version", tcol t "Version"),
   ("Nachlass", tcol t "Nachlass"),
   ("NachlassProzent", tcol t "NachlassProzent"),
   ("NachlassPauschal", tcol t "NachlassPauschal"),
   ("Createuser", coalesce (p.createUser.map JVal.str)
      (coalesce (p.sachBearb.map JVal.str) (tcol t "Createuser"))),
   ("Createdate", .date p.now),
   ("Edituser", coalesce (p.editUser.map JVal.str)
      (coalesce (p.sachBearb.map JVal.str) (tcol t "Edituser"))),
   ("Editdate", .date p.now),
   ("Gemeinkosten", tcol t "Gemeinkosten"),
   ("Ansprechpartner", tcol t "Ansprechpartner"),
   ("GrundlageSE", tcol t "GrundlageSE"),
   ("ProzentSE", tcol t "ProzentSE"),
   ("Qualifikation", tcol t "Qualifikation"),
   ("ProjBezeichnung", p.projBezeichnung),
   ("KonvertierungsFlag", tcol t "KonvertierungsFlag"),
   ("fkAnsprechpartnerIDProjAdr", .num (-1)),
   ("fkAnsprechpartnerIDRechAdr", .num (-1)),
   ("fkAnsprechpartnerIDBauhAdr", .num (-1)),
   ("fkAnsprechpartnerIDArchAdr", .num (-1)),
   ("AnlagenNr", tcol t "AnlagenNr"),
   ("IgnoreProjektampel", tcol t "IgnoreProjektampel"),
   ("GrundlageSEAZ", tcol t "GrundlageSEAZ"),
   ("ProzentSEAZ", tcol t "ProzentSEAZ"),
   ("SteuerSchl", tcol t "SteuerSchl"),
   ("Handelsspannenkalkulation", tcol t "Handelsspannenkalkulation"),
   ("EndberechnungenIstNettosumme", tcol t "EndberechnungenIstNettosumme"),
   ("KalkulationEinstellungen", tcol t "KalkulationEinstellungen")]

/-- Integer value of a `Createdate` column for the `ORDER BY Createdate DESC`
fallback template selection (dates and numbers compare by timestamp; anything
else sorts lowest — SQL leaves ties to incidental result order, modelled as
first-of-maximum). -/
def createdateKey (r : Row) : Int :=
  match rget r "Createdate" with
  | .date t => t
  | .num n => n
  | _ => 0

/-- `SELECT TOP 1 ... FROM dbo.Projekt {templateWhere}`: the configured
template project when `KWP_TEMPLATE_PROJNR` is set, otherwise the row with
the greatest `Createdate`. -/
def templatePick (cfg : Option String) (db : Db) : Option Row :=
  match cfg with
  | some tpl => db.projekt.find? (fun r => rget r "ProjNr" == JVal.str tpl)
  | none =>
    db.projekt.foldl
      (fun acc r =>
        match acc with
        | none => some r
        | some best => if createdateKey r > createdateKey best then some r else acc)
      none

/-- Validated payload data of `insertProjektFromTemplate`, computed before
any database access (pure in the payload). -/
structure TValid where
  projnr : String
  baseAddress : AddressRec
  rechnungAddress : Option AddressRec
  bauherrAddress : Option AddressRec
  rechnungSame : Bool
  bauherrSame : Bool
  deriving Repr

/-- The base address key: `payload.adresse?.adrNrGes || buildAdrKey(projnr,
'A')`. -/
def templateBaseKey (payload : JVal) (projnr : String) : JVal :=
  match (jget payload "adresse").bind (fun a => jget a "adrNrGes") with
  | some v => if truthy v then v else .str (buildAdrKey (.str projnr) "A")
  | none => .str (buildAdrKey (.str projnr) "A")

/-- `rechnungSame` of the template worker: inherit the primary address unless
`sameAsAdresse` is present and strictly `false`. -/
def templateRechSame (payload : JVal) : Bool :=
  !(jget2 payload "rechnungAdresse" "sameAsAdresse" == some (JVal.bool false))

/-- `bauherrSame` of the template worker, same rule for the site role. -/
def templateBauSame (payload : JVal) : Bool :=
  !(jget2 payload "bauherrAdresse" "sameAsAdresse" == some (JVal.bool false))

/-- The payload-validation prefix of `insertProjektFromTemplate`: project
number, base address with required fields, and the role defaulting
(`?.sameAsAdresse !== false`). -/
def templateValidate (payload : JVal) : Except SyncError TValid :=
  match fitString (jgetD payload "projnr") 30 with
  | none => .error (.missing "projnr")
  | some projnr =>
    match normalizeAddress (jgetD payload "adresse") (templateBaseKey payload projnr) with
    | none => .error (.missing "adresse (name, strasse, plz, ort)")
    | some base =>
      if !RealtimeSync.osTruthy base.name || !RealtimeSync.osTruthy base.strasse ||
          !RealtimeSync.osTruthy base.plz || !RealtimeSync.osTruthy base.ort then
        .error (.missing "adresse (name, strasse, plz, ort)")
      else
        .ok ⟨projnr, base,
          (if templateRechSame payload then some base
           else normalizeAddress (jgetD payload "rechnungAdresse")
             (.str (buildAdrKey (templateBaseKey payload projnr) "R"))),
          (if templateBauSame payload then some base
           else normalizeAddress (jgetD payload "bauherrAdresse")
             (.str (buildAdrKey (templateBaseKey payload projnr) "B"))),
          templateRechSame payload, templateBauSame payload⟩

/-- The pure bind-parameter block of `insertProjektFromTemplate` (sachbearb,
abtnr, auftragStatus, create/edit user, projbezeichnung). -/
def templateParams (payload : JVal) (projnr : String)
    (projAdr rechAdr bauAdr : String) (now : Int) : TParams :=
  { projnr := projnr,
    projBezeichnung := (jget payload "projbezeichnung").getD .null,
    projAdr := projAdr, rechAdr := rechAdr, bauAdr := bauAdr,
    now := now,
    abtNr := toFloat (jgetD payload "abtnr"),
    sachBearb := fitString (jgetD payload "sachbearb") 40,
    auftragStatus :=
      (match jget payload "auftragStatus" with
        | none => none
        | some w => if w == JVal.null then none else jsToNumber w),
    createUser := fitString
      (if truthy (jgetD payload "createuser") then jgetD payload "createuser"
       else match fitString (jgetD payload "sachbearb") 40 with
         | some s => .str s | none => .null) 16,
    editUser := fitString
      (if truthy (jgetD payload "edituser") then jgetD payload "edituser"
       else match fitString (jgetD payload "sachbearb") 40 with
         | some s => .str s | none => .null) 16 }

/-- `insertProjektFromTemplate`: validate the payload, short-circuit with
status `exists` when the project number is present (before any address
work), otherwise resolve the three addresses and clone the template row. -/
def insertProjektFromTemplate (cfg : Option String) (db : Db) (payload : JVal)
    (now : Int) : Except SyncError (String × String × Db) :=
  match templateValidate payload with
  | .error e => .error e
  | .ok v =>
    if db.projekt.any (fun r => rget r "ProjNr" == JVal.str v.projnr) then
      .ok ("exists", v.projnr, db)
    else
      match ensureAdresse db (some v.baseAddress) with
      | .error e => .error e
      | .ok (projAdr, db1) =>
        match ensureAdresse db1
            (match v.rechnungAddress with | some a => some a | none => some v.baseAddress) with
        | .error e => .error e
        | .ok (rechAdr, db2) =>
          match ensureAdresse db2
              (match v.bauherrAddress with | some a => some a | none => some v.baseAddress) with
          | .error e => .error e
          | .ok (bauAdr, db3) =>
            match templatePick cfg db3 with
            | none => .error .templateNotFound
            | some t =>
              .ok ("inserted", v.projnr,
                { db3 with projekt := db3.projekt ++
                  [templateInsertRow t (templateParams payload v.projnr projAdr rechAdr bauAdr now)] })

end TemplateSync

namespace CloneDb

/-- Column metadata of `fetchColumns` in `clone-mssql-to-docker.js` (the
fields the copy path reads). -/
structure CloneCol where
  column_name : String
  data_type : String
  is_nullable : Bool := true
  is_identity : Bool := false
  is_computed : Bool := false
  deriving Repr, DecidableEq

/-- `isRowversion`. -/
def isRowversion (col : CloneCol) : Bool :=
  jsLower col.data_type == "timestamp" || jsLower col.data_type == "rowversion"

/-- The insertable column filter of `copyTableData`: not computed and not a
rowversion/timestamp concurrency token. -/
def insertableCols (columns : List CloneCol) : List CloneCol :=
  columns.filter (fun col => !col.is_computed && !isRowversion col)

/-- Operations `copyTableData` issues against the target connection. -/
inductive CopyOp where
  /-- `SET IDENTITY_INSERT ... ON`. -/
  | identityOn
  /-- `SET IDENTITY_INSERT ... OFF`. -/
  | identityOff
  /-- One `bulk` call inserting `n` accumulated rows. -/
  | bulkInsert (n : Nat)
  deriving Repr, DecidableEq

/-- Streaming accumulator of `copyTableData`: the rows collected in the
current `bulkTable`, the index of the next bulk operation, the operations
issued so far, and whether a flush rejection has cancelled the stream. -/
structure StreamAcc where
  buf : Nat := 0
  k : Nat := 0
  ops : List CopyOp := []
  failed : Bool := false
  deriving Repr, DecidableEq

/-- The `row` event handler: accumulate one row; on reaching the batch size,
pause the stream and flush the full batch as one bulk insert (the promise
chain on `pendingFlush` has always resolved by then, because the stream stays
paused while a flush is in flight).  `bulkOk k` tells whether the `k`-th bulk
insert succeeds; a rejected flush cancels the request, so later rows are
ignored. -/
def streamStep (batchSize : Nat) (bulkOk : Nat → Bool) (acc : StreamAcc)
    (_row : Unit) : StreamAcc :=
  if acc.failed then acc
  else if batchSize ≤ acc.buf + 1 then
    if bulkOk acc.k then
      { buf := 0, k := acc.k + 1, ops := acc.ops ++ [.bulkInsert (acc.buf + 1)],
        failed := false }
    else
      { buf := 0, k := acc.k + 1, ops := acc.ops ++ [.bulkInsert (acc.buf + 1)],
        failed := true }
  else { acc with buf := acc.buf + 1 }

/-- The `done` event handler: await the pending flush chain, then flush the
final partial batch if any rows remain.  Returns the final accumulator and
whether the copy promise resolved. -/
def streamFinish (bulkOk : Nat → Bool) (acc : StreamAcc) : StreamAcc × Bool :=
  if acc.failed then (acc, false)
  else if acc.buf ≠ 0 then
    if bulkOk acc.k then
      ({ buf := 0, k := acc.k + 1, ops := acc.ops ++ [.bulkInsert acc.buf], failed := false }, true)
    else
      ({ buf := 0, k := acc.k + 1, ops := acc.ops ++ [.bulkInsert acc.buf], failed := true }, false)
  else (acc, true)

/-- `copyTableData`: skip tables with no insertable columns, toggle
`IDENTITY_INSERT` on before streaming when an insertable identity column
exists, stream the source rows through the batch accumulator, and toggle
`IDENTITY_INSERT` off — only after the streaming promise resolves; a
rejection propagates immediately, skipping the off toggle.  Result: the
operations issued on the target and whether the copy succeeded. -/
def copyTableData (batchSize : Nat) (columns : List CloneCol) (rows : List Unit)
    (bulkOk : Nat → Bool) : List CopyOp × Bool :=
  if (insertableCols columns).isEmpty then ([], true)
  else if (streamFinish bulkOk (rows.foldl (streamStep batchSize bulkOk) {})).2 then
    ((if (insertableCols columns).any (fun col => col.is_identity)
        then [CopyOp.identityOn] else []) ++
      (streamFinish bulkOk (rows.foldl (streamStep batchSize bulkOk) {})).1.ops ++
      (if (insertableCols columns).any (fun col => col.is_identity)
        then [CopyOp.identityOff] else []),
     true)
  else
    ((if (insertableCols columns).any (fun col => col.is_identity)
        then [CopyOp.identityOn] else []) ++
      (streamFinish bulkOk (rows.foldl (streamStep batchSize bulkOk) {})).1.ops,
     false)

/-- The sizes of the bulk inserts among a list of issued operations. -/
def bulkSizes (ops : List CopyOp) : List Nat :=
  ops.filterMap (fun op => match op with | .bulkInsert n => some n | _ => none)

/-- Event-level state of one table copy, making the pause/resume handshake
explicit: undelivered source rows, the rows accumulated in the current batch,
whether the source stream is paused, the bulk inserts currently in flight
(in issue order), and the completed flush sizes. -/
structure StreamSt where
  pending : List Unit := []
  buf : Nat := 0
  paused : Bool := false
  inFlight : List Nat := []
  flushed : List Nat := []
  deriving Repr, DecidableEq

/-- Event-level transitions of `copyTableData`'s streaming phase: a `row`
event is only delivered while the stream is not paused; a full batch pauses
the stream and starts a bulk insert; a completed bulk insert records its size
and resumes the stream. -/
inductive StreamStep (B : Nat) : StreamSt → StreamSt → Prop where
  | row {s : StreamSt} {rs : List Unit} :
      s.paused = false → s.pending = () :: rs → s.buf + 1 < B →
      StreamStep B s { s with pending := rs, buf := s.buf + 1 }
  | rowFull {s : StreamSt} {rs : List Unit} :
      s.paused = false → s.pending = () :: rs → B ≤ s.buf + 1 →
      StreamStep B s { s with pending := rs, buf := 0, paused := true,
                              inFlight := s.inFlight ++ [s.buf + 1] }
  | flushDone {s : StreamSt} {n : Nat} {rest : List Nat} :
      s.inFlight = n :: rest →
      StreamStep B s { s with inFlight := rest, flushed := s.flushed ++ [n],
                              paused := false }

/-- States of the streaming phase reachable from a fresh source cursor. -/
inductive StreamReach (B : Nat) (rows : List Unit) : StreamSt → Prop where
  | init : StreamReach B rows { pending := rows }
  | step {s s2 : StreamSt} (h : StreamReach B rows s) (hs : StreamStep B s s2) :
      StreamReach B rows s2

/-- Per-table flags of the clone `run` loop, from the `CLONE_*` environment
switches. -/
structure CloneFlags where
  dropExistingTables : Bool
  skipData : Bool
  compareCounts : Bool
  truncateExisting : Bool
  deriving Repr, DecidableEq

/-- Actions the per-table body of `run` can issue against the target. -/
inductive TableAction where
  | dropTable
  | createSchema
  | createTable
  | truncateTable
  | copyData
  deriving Repr, DecidableEq

/-- The per-table body of `run`: drop/recreate bookkeeping, then the data
phase — skipped entirely by `CLONE_SCHEMA_ONLY`, or by the row-count
comparison when the table still exists, both counts are available and they
are equal; otherwise optional truncation and the data copy. -/
def processTable (fl : CloneFlags) (colCount : Nat) (tableExists : Bool)
    (srcCount tgtCount : Option Int) : List TableAction :=
  if colCount = 0 then []
  else
    let pre : List TableAction :=
      if tableExists && fl.dropExistingTables then [.dropTable] else []
    let stillExists := tableExists && !fl.dropExistingTables
    let created : List TableAction :=
      if !stillExists then [.createSchema, .createTable] else []
    let base := pre ++ created
    if fl.skipData then base
    else if stillExists && fl.compareCounts &&
        (match srcCount, tgtCount with
          | some a, some b => a == b
          | _, _ => false) then base
    else
      base ++ (if stillExists && fl.truncateExisting then [.truncateTable] else [])
        ++ [.copyData]

end CloneDb

namespace RealtimeSync

/-- A representative live `dbo.Projekt` column set (the five columns the
workflow writes plus the four timestamp columns). -/
def projektMetaX : List ColumnMeta := [
  { column_name := "ProjNr", data_type := "nvarchar", max_length := 60,
    is_nullable := false, default_definition := some "x" },
  { column_name := "ProjAdr", data_type := "nvarchar", max_length := 48 },
  { column_name := "RechAdr", data_type := "nvarchar", max_length := 48 },
  { column_name := "BauHrAdr", data_type := "nvarchar", max_length := 48 },
  { column_name := "Createdate", data_type := "datetime", max_length := 8 },
  { column_name := "Editdate", data_type := "datetime", max_length := 8 },
  { column_name := "ProjAnlage", data_type := "datetime", max_length := 8 },
  { column_name := "AuftragsDatum", data_type := "datetime", max_length := 8 }]

/-- A representative live `dbo.adrAdressen` column set. -/
def adrMetaX : List ColumnMeta := [
  { column_name := "AdrNrGes", data_type := "nvarchar", max_length := 48,
    is_nullable := false },
  { column_name := "Name", data_type := "nvarchar", max_length := 200 },
  { column_name := "Strasse", data_type := "nvarchar", max_length := 160 },
  { column_name := "Ort", data_type := "int", max_length := 4 }]

/-- The empty database state. -/
def dbEmptyX : Db := ⟨[], [], []⟩

/-- A direct-insert payload that pins `ProjAdr` to the very id the generator
produces against the empty state. -/
def payC1 : JVal := .obj [
  ("projnr", .str "P1"),
  ("ProjAdr", .str "X_PROJADR1"),
  ("adresse", .obj [("name", .str "X"), ("strasse", .str "S"),
    ("plz", .str "11111"), ("ort", .str "Berlin")])]

/-- The result of the first direct-insert run of `payC1` on the empty state. -/
def resC1run1 : DirectResult :=
  match insertProjektDirect projektMetaX adrMetaX dbEmptyX payC1 0 with
  | .ok r => r
  | .error _ => ⟨"", .null, ⟨[], [], []⟩⟩

/-- A direct-insert payload whose billing sub-object omits `sameAsAdresse`
entirely. -/
def payC7 : JVal := .obj [
  ("projnr", .str "P3"),
  ("adresse", .obj [("name", .str "X"), ("strasse", .str "S"),
    ("plz", .str "11111"), ("ort", .str "Berlin")]),
  ("rechnungAdresse", .obj [("name", .str "Y"), ("strasse", .str "T"),
    ("plz", .str "11111"), ("ort", .str "Berlin")])]

/-- The prepared project row of `payC7` on the empty state. -/
def pdC7 : Row :=
  match directPrepare projektMetaX adrMetaX dbEmptyX payC7 0 with
  | .ok (pd, _) => pd
  | .error _ => []

/-- The database state after preparing `payC7` on the empty state. -/
def dbC7 : Db :=
  match directPrepare projektMetaX adrMetaX dbEmptyX payC7 0 with
  | .ok (_, d) => d
  | .error _ => ⟨[], [], []⟩

end RealtimeSync

namespace TemplateSync

/-- A database state holding one template project row. -/
def tdb0 : Db := ⟨[[("ProjNr", .str "T0"), ("Createdate", .date 5)]], [], []⟩

/-- A minimal valid template-worker payload. -/
def tpayW : JVal := .obj [
  ("projnr", .str "P1"),
  ("adresse", .obj [("name", .str "N"), ("strasse", .str "S"),
    ("plz", .str "11111"), ("ort", .str "Berlin")])]

/-- The database state after the first template run of `tpayW` on `tdb0`. -/
def tdbRun1 : Db :=
  match insertProjektFromTemplate none tdb0 tpayW 0 with
  | .ok (_, _, d) => d
  | .error _ => ⟨[], [], []⟩

end TemplateSync

/-! ## Lemmas and claim theorems -/

set_option maxRecDepth 16000


mutual

/-- `JVal.beq` is reflexive. -/
theorem JVal.beq_refl : (v : JVal) → JVal.beq v v = true
  | .null => rfl
  | .str s => by simp [JVal.beq]
  | .num n => by simp [JVal.beq]
  | .bool b => by simp [JVal.beq]
  | .date t => by simp [JVal.beq]
  | .obj fs => by simp [JVal.beq, JVal.beqFields_refl fs]

/-- `JVal.beqFields` is reflexive. -/
theorem JVal.beqFields_refl : (l : List (String × JVal)) → JVal.beqFields l l = true
  | [] => rfl
  | (k, v) :: r => by simp [JVal.beqFields, JVal.beq_refl v, JVal.beqFields_refl r]

end

/-- Unfolding `List.lookup` over a cons cell, for the assoc-row lemmas. -/
theorem lookup_cons {β : Type} (k k2 : String) (v2 : β) (r : List (String × β)) :
    List.lookup k ((k2, v2) :: r) = if k = k2 then some v2 else List.lookup k r := by
  by_cases h : k = k2
  · simp [List.lookup, h]
  · simp [List.lookup, h, beq_eq_false_iff_ne.mpr h]

/-- Reading back the field just assigned. -/
theorem rget_rset_self (r : Row) (k : String) (v : JVal) :
    rget (rset r k v) k = v := by
  induction r with
  | nil => simp [rset, rget, lookup_cons]
  | cons kv rest ih =>
    obtain ⟨k2, v2⟩ := kv
    by_cases h : k2 = k
    · simp [rset, h, beq_iff_eq, rget, lookup_cons]
    · have hne : ¬ (k2 == k) = true := by simp [beq_iff_eq, h]
      have hne2 : k ≠ k2 := fun he => h he.symm
      simpa [rset, hne, rget, lookup_cons, hne2] using ih

/-- Assignment leaves other fields unchanged. -/
theorem rget_rset_ne (r : Row) (k k2 : String) (v : JVal) (h : k2 ≠ k) :
    rget (rset r k v) k2 = rget r k2 := by
  induction r with
  | nil => simp [rset, rget, lookup_cons, h]
  | cons kv rest ih =>
    obtain ⟨k3, v3⟩ := kv
    by_cases h3 : k3 = k
    · subst h3
      simp [rset, beq_iff_eq, rget, lookup_cons, h]
    · have hne : ¬ (k3 == k) = true := by simp [beq_iff_eq, h3]
      by_cases h2 : k2 = k3
      · subst h2
        simp [rset, hne, rget, lookup_cons]
      · simpa [rset, hne, rget, lookup_cons, h2] using ih

namespace RealtimeSync

/-- A value whose string form exceeds a positive length budget makes the
strict `fitString` fail with the too-long error. -/
theorem fitString_too_long (v : JVal) (m : Int) (label : String)
    (hv0 : v ≠ .null) (hv1 : v ≠ .str "") (h0 : m ≠ 0)
    (hlen : m < ((jsToString v).length : Int)) :
    fitString v (some m) label = .error (.tooLong label m) := by
  unfold fitString
  split
  · exact absurd rfl hv0
  · exact absurd rfl hv1
  · show (if m ≠ 0 ∧ m < ((jsToString v).length : Int)
          then Except.error (SyncError.tooLong label m)
          else Except.ok (some (jsToString v))) = Except.error (SyncError.tooLong label m)
    rw [if_pos ⟨h0, hlen⟩]

/-- On a character-typed column, `normalizeValueForColumn` is exactly the
strict `fitString` with the column's character budget. -/
theorem normalize_string_branch (meta : ColumnMeta) (v : JVal)
    (htype : jsLower meta.data_type = "nvarchar" ∨ jsLower meta.data_type = "varchar" ∨
             jsLower meta.data_type = "nchar" ∨ jsLower meta.data_type = "char")
    (hv0 : v ≠ .null) :
    normalizeValueForColumn v meta =
      (fitString v
        (if meta.max_length = -1 then none
         else if strStarts (jsLower meta.data_type) "n" then some (meta.max_length / 2)
         else some meta.max_length) meta.column_name).map
        (fun o => match o with | none => .null | some s => .str s) := by
  unfold normalizeValueForColumn
  split
  · exact absurd rfl hv0
  · rw [if_pos htype]

/-- C6 — for every string-typed column with a finite `maxLength` (character
budget `m`, halved byte length for the `n`-prefixed types), a non-null,
non-empty raw value whose string form is longer than `m` makes coercion fail
with the value-too-long error rather than truncating, and a null or empty raw
value always coerces to native null without error. -/
theorem kwp_c6 (meta : ColumnMeta) (v : JVal) (m : Int)
    (htype : jsLower meta.data_type = "nvarchar" ∨ jsLower meta.data_type = "varchar" ∨
             jsLower meta.data_type = "nchar" ∨ jsLower meta.data_type = "char")
    (hfin : meta.max_length ≠ -1)
    (hm : m = if strStarts (jsLower meta.data_type) "n" then meta.max_length / 2
              else meta.max_length)
    (hpos : 0 < m) :
    ((v ≠ .null ∧ v ≠ .str "" ∧ m < ((jsToString v).length : Int)) →
        normalizeValueForColumn v meta = .error (.tooLong meta.column_name m))
  ∧ ((v = .null ∨ v = .str "") → normalizeValueForColumn v meta = .ok .null) := by
  have hsome : (if strStarts (jsLower meta.data_type) "n" then some (meta.max_length / 2)
      else some meta.max_length) = some m := by
    rw [hm]; split <;> rfl
  constructor
  · rintro ⟨hv0, hv1, hlen⟩
    rw [normalize_string_branch meta v htype hv0, if_neg hfin, hsome,
      fitString_too_long v m meta.column_name hv0 hv1 (by omega) hlen]
    rfl
  · rintro (rfl | rfl)
    · rfl
    · rw [normalize_string_branch meta (.str "") htype (by simp)]
      rfl

/-- Closed instance of `kwp_c6`: an `nvarchar(2)` column rejects "abc" with
the too-long error and maps null to null. -/
theorem kwp_c6_witness :
    normalizeValueForColumn (.str "abc")
        { column_name := "Name", data_type := "nvarchar", max_length := 4 }
      = .error (.tooLong "Name" 2)
  ∧ normalizeValueForColumn .null
        { column_name := "Name", data_type := "nvarchar", max_length := 4 }
      = .ok .null :=
  ⟨(kwp_c6 { column_name := "Name", data_type := "nvarchar", max_length := 4 }
      (.str "abc") 2 (Or.inl (by decide)) (by decide) (by decide) (by decide)).1
      ⟨by simp, by simp, by decide⟩,
   (kwp_c6 { column_name := "Name", data_type := "nvarchar", max_length := 4 }
      .null 2 (Or.inl (by decide)) (by decide) (by decide) (by decide)).2 (Or.inl rfl)⟩

/-- The strict `fitString` never raises an unknown-field error. -/
theorem fitString_no_unknown (v : JVal) (ml : Option Int) (label l2 k : String) :
    fitString v ml label ≠ .error (.unknownField l2 k) := by
  intro h
  unfold fitString at h
  split at h
  · simp at h
  · simp at h
  · split at h
    · split at h <;> simp_all
    · simp at h

/-- `toNumber` never raises an unknown-field error. -/
theorem toNumber_no_unknown (v : JVal) (label l2 k : String) :
    toNumber v label ≠ .error (.unknownField l2 k) := by
  intro h
  unfold toNumber at h
  split at h
  · simp at h
  · simp at h
  · split at h <;> simp at h

/-- `Except.map` keeps an error intact. -/
theorem except_map_error_iff {ε α β : Type} (f : α → β) (x : Except ε α) (e : ε) :
    x.map f = .error e ↔ x = .error e := by
  cases x <;> simp [Except.map]

/-- `normalizeValueForColumn` never raises an unknown-field error (its only
failures are length and number-parse errors). -/
theorem normalize_no_unknown (v : JVal) (meta : ColumnMeta) (l2 k : String) :
    normalizeValueForColumn v meta ≠ .error (.unknownField l2 k) := by
  intro h
  unfold normalizeValueForColumn at h
  split at h
  · simp at h
  · split at h
    · rw [except_map_error_iff] at h
      exact fitString_no_unknown _ _ _ _ _ h
    · split at h
      · rw [except_map_error_iff] at h
        exact toNumber_no_unknown _ _ _ _ h
      · split at h
        · rw [except_map_error_iff] at h
          exact toNumber_no_unknown _ _ _ _ h
        · split at h
          · split at h
            · simp at h
            · rw [except_map_error_iff] at h
              exact toNumber_no_unknown _ _ _ _ h
          · simp at h

/-- If every payload key is allowed or resolves case-insensitively, the
mapping loop never raises an unknown-field error (it may still fail
otherwise). -/
theorem mapGo_no_unknown (maps : ColumnMaps) (ak : List String) (l : String) :
    ∀ (entries : List (String × JVal)) (data : Row),
      (∀ kv ∈ entries, ak.contains kv.1 = true ∨
        ((maps.byLower.lookup (jsLower kv.1)).isSome = true)) →
      ∀ l2 k, mapPayloadGo maps ak l entries data ≠ .error (.unknownField l2 k) := by
  intro entries
  induction entries with
  | nil => intro data _ l2 k; simp [mapPayloadGo]
  | cons kv rest ih =>
    intro data hall l2 k
    obtain ⟨key, value⟩ := kv
    have hkv := hall (key, value) (List.mem_cons_self _ _)
    have hrest := fun kv2 h2 => hall kv2 (List.mem_cons_of_mem _ h2)
    unfold mapPayloadGo
    by_cases hak : ak.contains key = true
    · rw [if_pos hak]
      exact ih data hrest l2 k
    · rw [if_neg hak]
      rcases hkv with hkv | hkv
      · exact absurd hkv hak
      · obtain ⟨cn, hcn⟩ := Option.isSome_iff_exists.mp hkv
        rw [hcn]
        dsimp only
        by_cases hins : (!isInsertableColumn (maps.metaByName.lookup cn)) = true
        · rw [if_pos hins]
          simp
        · rw [if_neg hins]
          cases hmeta : maps.metaByName.lookup cn with
          | none => simp
          | some m =>
            dsimp only
            cases hnorm : normalizeValueForColumn value m with
            | error e =>
              intro h
              rw [Except.error.injEq] at h
              exact normalize_no_unknown value m l2 k (h ▸ hnorm)
            | ok v2 => exact ih _ hrest l2 k

/-- If every entry before the first unresolvable key is allowed or maps to an
insertable column with a successful coercion, the loop fails with the
unknown-field error naming that key. -/
theorem mapGo_first_unknown (maps : ColumnMaps) (ak : List String) (l : String) :
    ∀ (pre : List (String × JVal)) (k : String) (v : JVal)
      (post : List (String × JVal)) (data : Row),
      ak.contains k = false →
      maps.byLower.lookup (jsLower k) = none →
      (∀ kv ∈ pre, ak.contains kv.1 = true ∨
        ∃ cn m w, maps.byLower.lookup (jsLower kv.1) = some cn ∧
          maps.metaByName.lookup cn = some m ∧ isInsertableColumn (some m) = true ∧
          normalizeValueForColumn kv.2 m = .ok w) →
      mapPayloadGo maps ak l (pre ++ (k, v) :: post) data = .error (.unknownField l k) := by
  intro pre
  induction pre with
  | nil =>
    intro k v post data hak hlook _
    rw [List.nil_append]
    unfold mapPayloadGo
    rw [if_neg (by rw [hak]; simp), hlook]
  | cons kv rest ih =>
    intro k v post data hak hlook hpre
    obtain ⟨k1, v1⟩ := kv
    have hkv := hpre (k1, v1) (List.mem_cons_self _ _)
    have hrest := fun kv2 h2 => hpre kv2 (List.mem_cons_of_mem _ h2)
    rw [List.cons_append]
    unfold mapPayloadGo
    rcases hkv with hkv | ⟨cn, m, w, hcn, hm, hins, hnorm⟩
    · rw [if_pos hkv]
      exact ih k v post data hak hlook hrest
    · by_cases hc : ak.contains k1 = true
      · rw [if_pos hc]
        exact ih k v post data hak hlook hrest
      · rw [if_neg hc, hcn]
        dsimp only
        rw [hm]
        rw [show (!isInsertableColumn (some m)) = false by simp [hins]]
        rw [if_neg (by simp)]
        dsimp only
        rw [hnorm]
        exact ih k v post _ hak hlook hrest

/-- C5 (counterexample) — a payload whose first key maps to an identity
(non-insertable) column and whose second key "zzz" has no case-insensitive
match fails with the not-writable error for the first key, not with an
unknown-field error naming "zzz"; so the mapping does not fail with an
unknown-field error whenever some key is unmatched. -/
theorem kwp_c5_counterexample :
    mapPayloadToColumns [("Id", .num 1), ("zzz", .null)]
        [{ column_name := "Id", data_type := "int", max_length := 4, is_identity := true }]
        [] "payload"
      = .error (.notWritable "payload" "Id")
  ∧ (buildColumnMaps
        [{ column_name := "Id", data_type := "int", max_length := 4, is_identity := true }]).byLower.lookup
        (jsLower "zzz") = none
  ∧ SyncError.notWritable "payload" "Id" ≠ .unknownField "payload" "zzz" :=
  ⟨rfl, rfl, by simp⟩

/-- C5 (amended) — (1) a payload all of whose non-allowed keys match
case-insensitively never raises an unknown-field error; (2) when a key
outside the allowed extra keys has no case-insensitive match and every
earlier key is allowed or maps to an insertable column with a successful
coercion, mapping fails with the unknown-field error naming that first
unmatched key. -/
theorem kwp_c5_amended :
    (∀ (raw : List (String × JVal)) (cols : List ColumnMeta) (ak : List String)
       (l : String),
       (∀ kv ∈ raw, ak.contains kv.1 = true ∨
         (((buildColumnMaps cols).byLower.lookup (jsLower kv.1)).isSome = true)) →
       ∀ l2 k, mapPayloadToColumns raw cols ak l ≠ .error (.unknownField l2 k))
  ∧ (∀ (pre : List (String × JVal)) (k : String) (v : JVal)
       (post : List (String × JVal)) (cols : List ColumnMeta) (ak : List String)
       (l : String),
       ak.contains k = false →
       (buildColumnMaps cols).byLower.lookup (jsLower k) = none →
       (∀ kv ∈ pre, ak.contains kv.1 = true ∨
         ∃ cn m w, (buildColumnMaps cols).byLower.lookup (jsLower kv.1) = some cn ∧
           (buildColumnMaps cols).metaByName.lookup cn = some m ∧
           isInsertableColumn (some m) = true ∧
           normalizeValueForColumn kv.2 m = .ok w) →
       mapPayloadToColumns (pre ++ (k, v) :: post) cols ak l
         = .error (.unknownField l k)) :=
  ⟨fun raw cols ak l hall l2 k =>
      mapGo_no_unknown (buildColumnMaps cols) ak l raw [] hall l2 k,
   fun pre k v post cols ak l hak hlook hpre =>
      mapGo_first_unknown (buildColumnMaps cols) ak l pre k v post [] hak hlook hpre⟩

/-- Closed instance of `kwp_c5_amended` on a two-column schema: a payload of
one valid key never triggers an unknown-field error, and a payload with a
valid key followed by the unmatched key "zzz" fails naming "zzz". -/
theorem kwp_c5_amended_witness :
    (mapPayloadToColumns [("name", .str "x")]
        [{ column_name := "Name", data_type := "nvarchar", max_length := 40 }] [] "payload"
      ≠ .error (.unknownField "payload" "zzz"))
  ∧ mapPayloadToColumns [("name", .str "x"), ("zzz", .null)]
        [{ column_name := "Name", data_type := "nvarchar", max_length := 40 }] [] "payload"
      = .error (.unknownField "payload" "zzz") :=
  ⟨kwp_c5_amended.1 [("name", .str "x")]
      [{ column_name := "Name", data_type := "nvarchar", max_length := 40 }] [] "payload"
      (fun kv hkv => by
        rcases List.mem_singleton.mp hkv with rfl
        right; rfl)
      "payload" "zzz",
   kwp_c5_amended.2 [("name", .str "x")] "zzz" .null []
      [{ column_name := "Name", data_type := "nvarchar", max_length := 40 }] [] "payload"
      rfl rfl
      (fun kv hkv => by
        rcases List.mem_singleton.mp hkv with rfl
        exact Or.inr ⟨"Name", { column_name := "Name", data_type := "nvarchar", max_length := 40 },
          .str "x", rfl, rfl, rfl, rfl⟩)⟩

/-- C2 — id-generation length bound violated at a boundary input: with an
existing 24-character id carrying a maximal 15-digit counter run, the next
counter needs 16 digits, the re-derived base budget becomes 0, which the
truncation helper treats as "no limit" (`maxLen ? ... : s`), and the
generated id is 25 characters long, exceeding `ADR_NR_MAX = 24`; downstream
`ensureAdresse` rejects exactly such ids as too long, confirming the intended
bound. -/
theorem kwp_c2 :
    generateAdrNrGes ⟨[], [[("AdrNrGes", JVal.str "A_PROJADR999999999999999")]], []⟩
        (.obj [("name", .str "A")]) "PROJADR" = "A_PROJADR1000000000000000"
  ∧ "A_PROJADR999999999999999".length = ADR_NR_MAX
  ∧ "A_PROJADR1000000000000000".length = 25
  ∧ ADR_NR_MAX < 25 :=
  ⟨rfl, by decide, by decide, by decide⟩

/-- C9 (counterexample) — for a table name other than the two wired slots,
the first lookup issues a catalog query but populates nothing, and the second
lookup issues a second query instead of returning cached metadata. -/
theorem kwp_c9_counterexample :
    getTableColumns (fun _ => []) ⟨none, none⟩ "dbo.Other" = ([], ⟨none, none⟩, true)
  ∧ (let r := getTableColumns (fun _ => []) ⟨none, none⟩ "dbo.Other"
     getTableColumns (fun _ => []) r.2.1 "dbo.Other" = ([], ⟨none, none⟩, true)) :=
  ⟨rfl, rfl⟩

/-- C9 (amended) — for the two table names the workflow actually queries
(`dbo.adrAdressen`, `dbo.Projekt`), the first lookup populates the matching
cache slot and every subsequent lookup returns the same metadata from the
cache without issuing another catalog query. -/
theorem kwp_c9_amended (catalog : String → List ColumnMeta) (c : ColCache)
    (name : String) (h : name = "dbo.adrAdressen" ∨ name = "dbo.Projekt") :
    getTableColumns catalog (getTableColumns catalog c name).2.1 name
      = ((getTableColumns catalog c name).1, (getTableColumns catalog c name).2.1, false) := by
  rcases h with rfl | rfl
  · cases hc : c.adr <;> simp [getTableColumns, hc]
  · cases hc : c.projekt <;> simp [getTableColumns, hc]

/-- Closed instance of `kwp_c9_amended` at an empty cache and a one-column
catalog. -/
theorem kwp_c9_amended_witness :
    ("dbo.Projekt" = "dbo.adrAdressen" ∨ "dbo.Projekt" = "dbo.Projekt")
  ∧ getTableColumns
        (fun _ => [{ column_name := "ProjNr", data_type := "nvarchar", max_length := 60 }])
        (getTableColumns
          (fun _ => [{ column_name := "ProjNr", data_type := "nvarchar", max_length := 60 }])
          ⟨none, none⟩ "dbo.Projekt").2.1 "dbo.Projekt"
      = ((getTableColumns
            (fun _ => [{ column_name := "ProjNr", data_type := "nvarchar", max_length := 60 }])
            ⟨none, none⟩ "dbo.Projekt").1,
         (getTableColumns
            (fun _ => [{ column_name := "ProjNr", data_type := "nvarchar", max_length := 60 }])
            ⟨none, none⟩ "dbo.Projekt").2.1, false) :=
  ⟨Or.inr rfl,
   kwp_c9_amended
      (fun _ => [{ column_name := "ProjNr", data_type := "nvarchar", max_length := 60 }])
      ⟨none, none⟩ "dbo.Projekt" (Or.inr rfl)⟩

end RealtimeSync

end KwpSync
namespace KwpSync
namespace CloneDb

theorem ceil_div_eq (B n : Nat) (hB : 0 < B) :
    n / B + (if n % B = 0 then 0 else 1) = (n + B - 1) / B := by
  have hmod := Nat.mod_lt n hB
  have hdm := Nat.div_add_mod n B
  by_cases h : n % B = 0
  · rw [if_pos h]
    have h2 : n + B - 1 = B * (n / B) + (B - 1) := by omega
    rw [h2, Nat.mul_add_div hB, Nat.div_eq_of_lt (show B - 1 < B by omega)]
  · rw [if_neg h]
    have h2 : n + B - 1 = B * (n / B + 1) + (n % B - 1) := by
      have h3 : B * (n / B + 1) = B * (n / B) + B := by ring
      omega
    rw [h2, Nat.mul_add_div hB, Nat.div_eq_of_lt (show n % B - 1 < B by omega)]

theorem streamFold_allOk (B : Nat) (hB : 0 < B) :
    ∀ (rows : List Unit) (acc : StreamAcc), acc.failed = false → acc.buf < B →
      rows.foldl (streamStep B (fun _ => true)) acc =
        { buf := (acc.buf + rows.length) % B,
          k := acc.k + (acc.buf + rows.length) / B,
          ops := acc.ops ++ List.replicate ((acc.buf + rows.length) / B) (.bulkInsert B),
          failed := false } := by
  intro rows
  induction rows with
  | nil =>
    intro acc h0 hb
    cases acc
    simp_all [Nat.mod_eq_of_lt hb, Nat.div_eq_of_lt hb]
  | cons r rs ih =>
    intro acc h0 hb
    obtain ⟨ab, ak2, aops, af⟩ := acc
    dsimp at h0 hb
    subst h0
    rw [List.foldl_cons]
    dsimp only
    by_cases hfull : B ≤ ab + 1
    · have hbeq : ab + 1 = B := le_antisymm (Nat.succ_le_of_lt hb) hfull
      have hstep : streamStep B (fun _ => true) ⟨ab, ak2, aops, false⟩ () =
          ⟨0, ak2 + 1, aops ++ [.bulkInsert (ab + 1)], false⟩ := by
        unfold streamStep
        rw [if_neg (by simp), if_pos hfull, if_pos rfl]
      have harith : ab + (rs.length + 1) = B + rs.length := by omega
      have h1 : (B + rs.length) % B = rs.length % B := by
        rw [Nat.add_comm, Nat.add_mod_right]
      have h2 : (B + rs.length) / B = rs.length / B + 1 := by
        rw [Nat.add_comm, Nat.add_div_right _ hB]
      rw [hstep, ih ⟨0, ak2 + 1, aops ++ [CopyOp.bulkInsert (ab + 1)], false⟩ rfl hB]
      simp only [List.length_cons, Nat.zero_add, StreamAcc.mk.injEq]
      refine ⟨by rw [harith, h1], by rw [harith, h2]; omega, ?_, trivial⟩
      rw [harith, h2, hbeq, List.append_assoc, List.replicate_succ, List.singleton_append]
    · have hlt : ab + 1 < B := lt_of_not_ge hfull
      have hstep : streamStep B (fun _ => true) ⟨ab, ak2, aops, false⟩ () =
          ⟨ab + 1, ak2, aops, false⟩ := by
        unfold streamStep
        rw [if_neg (by simp), if_neg hfull]
      rw [hstep, ih ⟨ab + 1, ak2, aops, false⟩ rfl hlt]
      simp only [List.length_cons]
      have h3 : ab + 1 + rs.length = ab + (rs.length + 1) := by omega
      rw [h3]

theorem bulkSizes_append (a b : List CopyOp) :
    bulkSizes (a ++ b) = bulkSizes a ++ bulkSizes b := by
  simp [bulkSizes]

theorem bulkSizes_replicate (q : Nat) (B : Nat) :
    bulkSizes (List.replicate q (.bulkInsert B)) = List.replicate q B := by
  induction q with
  | zero => rfl
  | succ q ih =>
    simp only [List.replicate_succ, bulkSizes, List.filterMap_cons] at ih ⊢
    rw [ih]

theorem stream_invariant (B : Nat) (rows : List Unit) :
    ∀ s, StreamReach B rows s →
      s.inFlight.length ≤ 1 ∧ (s.inFlight ≠ [] → s.paused = true) := by
  intro s h
  induction h with
  | init => simp
  | step h hs ih =>
    cases hs with
    | row hp hpend hlt => exact ih
    | rowFull hp hpend hge =>
      rename_i s2 rs
      have hnil : s2.inFlight = [] := by
        by_contra hne
        have := ih.2 hne
        rw [hp] at this
        exact absurd this (by simp)
      simp [hnil]
    | flushDone hf =>
      rename_i s2 n rest
      have hlen := ih.1
      rw [hf] at hlen
      simp only [List.length_cons] at hlen
      have hrest : rest = [] := List.length_eq_zero.mp (by omega)
      simp [hrest]

/-- C3 — batching bound of the per-table copier: with batch size `B` over
`N` rows (every flush succeeding), the bulk inserts have sizes
`B, ..., B, N mod B` — exactly `ceil(N/B)` of them — the unflushed buffer
never exceeds `B` rows at any point of the stream, and the await-before-next
flush discipline keeps at most one bulk insert in flight. -/
theorem kwp_c3 (B : Nat) (hB : 0 < B) (cols : List CloneCol) (rows : List Unit)
    (hne : (insertableCols cols).isEmpty = false) :
    (bulkSizes (copyTableData B cols rows (fun _ => true)).1
        = List.replicate (rows.length / B) B ++
          (if rows.length % B = 0 then [] else [rows.length % B]))
  ∧ ((bulkSizes (copyTableData B cols rows (fun _ => true)).1).length
        = (rows.length + B - 1) / B)
  ∧ (∀ j, ((rows.take j).foldl (streamStep B (fun _ => true)) {}).buf ≤ B)
  ∧ (∀ s, StreamReach B rows s → s.inFlight.length ≤ 1) := by
  have hfold := streamFold_allOk B hB rows {} rfl hB
  simp only [Nat.zero_add, List.nil_append] at hfold
  have hfin : streamFinish (fun _ => true) (rows.foldl (streamStep B (fun _ => true)) {})
      = (⟨if rows.length % B = 0 then rows.length % B else 0,
          if rows.length % B = 0 then rows.length / B else rows.length / B + 1,
          List.replicate (rows.length / B) (.bulkInsert B) ++
            (if rows.length % B = 0 then [] else [.bulkInsert (rows.length % B)]),
          false⟩, true) := by
    rw [hfold]
    unfold streamFinish
    by_cases hr : rows.length % B = 0
    · rw [if_neg (by simp)]
      rw [if_neg (by simp [hr])]
      simp [hr]
    · rw [if_neg (by simp)]
      rw [if_pos (by simp [hr])]
      rw [if_pos rfl]
      simp [hr]
  have hsizes : bulkSizes (copyTableData B cols rows (fun _ => true)).1
      = List.replicate (rows.length / B) B ++
        (if rows.length % B = 0 then [] else [rows.length % B]) := by
    unfold copyTableData
    rw [if_neg (by simp [hne]), hfin]
    dsimp only
    rw [if_pos rfl]
    dsimp only
    rw [bulkSizes_append, bulkSizes_append, bulkSizes_append, bulkSizes_replicate]
    have hpre : bulkSizes (if (insertableCols cols).any (fun col => col.is_identity)
        then [CopyOp.identityOn] else []) = [] := by
      split <;> simp [bulkSizes]
    have hpost : bulkSizes (if (insertableCols cols).any (fun col => col.is_identity)
        then [CopyOp.identityOff] else []) = [] := by
      split <;> simp [bulkSizes]
    rw [hpre, hpost]
    by_cases hr : rows.length % B = 0
    · simp [hr, bulkSizes]
    · simp [hr, bulkSizes]
  refine ⟨hsizes, ?_, ?_, fun s h => (stream_invariant B rows s h).1⟩
  · rw [hsizes]
    simp only [List.length_append, List.length_replicate]
    rw [← ceil_div_eq B rows.length hB]
    by_cases hr : rows.length % B = 0
    · simp [hr]
    · simp [hr]
  · intro j
    have := streamFold_allOk B hB (rows.take j) {} rfl hB
    rw [this]
    dsimp only
    have := Nat.mod_lt (0 + (rows.take j).length) hB
    omega

end CloneDb
end KwpSync
namespace KwpSync
namespace CloneDb

/-- Closed instance of `kwp_c3` at `N = 2500`, `B = 1000`: flushes of
1000, 1000 and 500. -/
theorem kwp_c3_witness :
    bulkSizes (copyTableData 1000 [{ column_name := "Id", data_type := "int" }]
        (List.replicate 2500 ()) (fun _ => true)).1 = [1000, 1000, 500]
  ∧ (∀ j, (((List.replicate 2500 ()).take j).foldl (streamStep 1000 (fun _ => true)) {}).buf ≤ 1000)
  ∧ (∀ s, StreamReach 1000 (List.replicate 2500 ()) s → s.inFlight.length ≤ 1) := by
  have h := kwp_c3 1000 (by decide) [{ column_name := "Id", data_type := "int" }]
    (List.replicate 2500 ()) (by rfl)
  refine ⟨?_, h.2.2.1, h.2.2.2⟩
  rw [h.1]
  simp only [List.length_replicate]
  decide

theorem fold_ops_bulk (B : Nat) (bulkOk : Nat → Bool) :
    ∀ (rows : List Unit) (acc : StreamAcc),
      (∀ o ∈ acc.ops, ∃ n, o = CopyOp.bulkInsert n) →
      ∀ o ∈ (rows.foldl (streamStep B bulkOk) acc).ops, ∃ n, o = CopyOp.bulkInsert n := by
  intro rows
  induction rows with
  | nil => intro acc hacc; exact hacc
  | cons r rs ih =>
    intro acc hacc
    rw [List.foldl_cons]
    apply ih
    intro o ho
    unfold streamStep at ho
    split at ho
    · exact hacc o ho
    · split at ho
      · split at ho <;>
        · simp only [] at ho
          rcases List.mem_append.mp ho with h1 | h1
          · exact hacc o h1
          · exact ⟨acc.buf + 1, List.mem_singleton.mp h1⟩
      · exact hacc o ho

theorem finish_ops_bulk (bulkOk : Nat → Bool) (acc : StreamAcc)
    (hacc : ∀ o ∈ acc.ops, ∃ n, o = CopyOp.bulkInsert n) :
    ∀ o ∈ (streamFinish bulkOk acc).1.ops, ∃ n, o = CopyOp.bulkInsert n := by
  intro o ho
  unfold streamFinish at ho
  split at ho
  · exact hacc o ho
  · split at ho
    · split at ho <;>
      · simp only [] at ho
        rcases List.mem_append.mp ho with h1 | h1
        · exact hacc o h1
        · exact ⟨acc.buf, List.mem_singleton.mp h1⟩
    · exact hacc o ho

/-- C4 (amended) — for a table with an identity column the copier emits
`SET IDENTITY_INSERT ON` before streaming, and emits the matching `OFF` at
the end only when the copy completes without error: there is no
`try/finally`, so an aborted copy ends with `ON` still in effect and no
`OFF` ever issued. -/
theorem kwp_c4_amended (B : Nat) (cols : List CloneCol) (rows : List Unit)
    (bulkOk : Nat → Bool)
    (hid : (insertableCols cols).any (fun col => col.is_identity) = true) :
    ((copyTableData B cols rows bulkOk).2 = true →
      (copyTableData B cols rows bulkOk).1.head? = some .identityOn ∧
      (copyTableData B cols rows bulkOk).1.getLast? = some .identityOff)
  ∧ ((copyTableData B cols rows bulkOk).2 = false →
      CopyOp.identityOn ∈ (copyTableData B cols rows bulkOk).1 ∧
      CopyOp.identityOff ∉ (copyTableData B cols rows bulkOk).1) := by
  have hne : (insertableCols cols).isEmpty = false := by
    rcases List.any_eq_true.mp hid with ⟨x, hx, _⟩
    cases h : insertableCols cols
    · rw [h] at hx; simp at hx
    · rfl
  have hbulk := finish_ops_bulk bulkOk (rows.foldl (streamStep B bulkOk) {})
    (fold_ops_bulk B bulkOk rows {} (by intro o ho; simp at ho))
  unfold copyTableData
  rw [if_neg (by simp [hne]), hid]
  by_cases hok : (streamFinish bulkOk (rows.foldl (streamStep B bulkOk) {})).2 = true
  · rw [if_pos hok]
    dsimp only
    constructor
    · intro _
      constructor
      · rw [if_pos rfl]
        simp
      · rw [if_pos rfl]
        exact List.getLast?_concat _
    · intro hfalse
      simp at hfalse
  · rw [if_neg hok]
    dsimp only
    constructor
    · intro htrue
      simp at htrue
    · intro _
      rw [if_pos rfl, List.singleton_append]
      constructor
      · exact List.mem_cons_self _ _
      · intro hmem
        rcases List.mem_cons.mp hmem with h1 | h1
        · exact absurd h1 (by simp)
        · rcases hbulk _ h1 with ⟨n, hn⟩
          exact absurd hn (by simp)

/-- C4 (counterexample) — a one-row copy whose flush fails issues
`identityOn` and the failing bulk insert but never `identityOff`, refuting
the guaranteed-cleanup-on-error reading. -/
theorem kwp_c4_counterexample :
    copyTableData 1 [{ column_name := "Id", data_type := "int", is_identity := true }]
        [()] (fun _ => false)
      = ([.identityOn, .bulkInsert 1], false)
  ∧ CopyOp.identityOff ∉ [CopyOp.identityOn, CopyOp.bulkInsert 1] :=
  ⟨rfl, by decide⟩

/-- Closed instance of `kwp_c4_amended` on a three-row copy with batch size
two that completes successfully. -/
theorem kwp_c4_amended_witness :
    ((insertableCols [{ column_name := "Id", data_type := "int", is_identity := true }]).any
        (fun col => col.is_identity) = true)
  ∧ ((copyTableData 2 [{ column_name := "Id", data_type := "int", is_identity := true }]
        [(), (), ()] (fun _ => true)).2 = true →
      (copyTableData 2 [{ column_name := "Id", data_type := "int", is_identity := true }]
        [(), (), ()] (fun _ => true)).1.head? = some .identityOn ∧
      (copyTableData 2 [{ column_name := "Id", data_type := "int", is_identity := true }]
        [(), (), ()] (fun _ => true)).1.getLast? = some .identityOff) :=
  ⟨by rfl,
   (kwp_c4_amended 2 [{ column_name := "Id", data_type := "int", is_identity := true }]
      [(), (), ()] (fun _ => true) (by rfl)).1⟩

/-- C8 — when the target table still exists, count comparison is enabled and
the source and target row counts agree, the per-table run issues no
operations at all for that table. -/
theorem kwp_c8 (fl : CloneFlags) (colCount : Nat) (n : Int)
    (hdrop : fl.dropExistingTables = false) (hcmp : fl.compareCounts = true) :
    processTable fl colCount true (some n) (some n) = [] := by
  unfold processTable
  by_cases h0 : colCount = 0
  · rw [if_pos h0]
  · rw [if_neg h0]
    simp [hdrop, hcmp]

/-- Closed instance of `kwp_c8` at equal counts of five over three
columns. -/
theorem kwp_c8_witness :
    ((⟨false, false, true, false⟩ : CloneFlags).dropExistingTables = false)
  ∧ ((⟨false, false, true, false⟩ : CloneFlags).compareCounts = true)
  ∧ processTable ⟨false, false, true, false⟩ 3 true (some 5) (some 5) = [] :=
  ⟨rfl, rfl, kwp_c8 ⟨false, false, true, false⟩ 3 5 rfl rfl⟩

end CloneDb
end KwpSync
namespace KwpSync
namespace RealtimeSync

/-- The id of the row currently being handled, when it has one. -/
def currentIds (s : QState) : List String :=
  match s.current with
  | none => []
  | some r => match r.id with | none => [] | some i => [i]

/-- Consumer-state invariant: the ids of queued rows and of the row being
handled are pairwise distinct and all tracked in `enqueuedIds`; queued and
in-flight rows have truthy ids; `enqueuedIds` is duplicate-free (Set
semantics). -/
def QInv (s : QState) : Prop :=
  (queueIds s ++ currentIds s).Nodup
  ∧ (∀ i ∈ queueIds s ++ currentIds s, i ∈ s.enqueuedIds)
  ∧ (∀ r ∈ s.queue, idTruthy r.id = true)
  ∧ (∀ r, s.current = some r → idTruthy r.id = true)
  ∧ s.enqueuedIds.Nodup

theorem enqueue_inv (s : QState) (row : QRow) (h : QInv s) : QInv (enqueue s row) := by
  obtain ⟨qs, ids, cur⟩ := s
  obtain ⟨hnd, hsub, hq, hc, hids⟩ := h
  unfold enqueue
  cases hrid : row.id with
  | none => exact ⟨hnd, hsub, hq, hc, hids⟩
  | some i =>
    dsimp only
    by_cases hie : i = ""
    · rw [if_pos hie]; exact ⟨hnd, hsub, hq, hc, hids⟩
    · rw [if_neg hie]
      by_cases hin : ids.contains i = true
      · rw [if_pos hin]; exact ⟨hnd, hsub, hq, hc, hids⟩
      · rw [if_neg hin]
        have hnotin : i ∉ ids := fun hmem => hin (List.elem_eq_true_of_mem hmem)
        have hqids : queueIds ⟨qs ++ [row], ids ++ [i], cur⟩
            = queueIds ⟨qs, ids, cur⟩ ++ [i] := by
          simp [queueIds, hrid]
        have hcids : currentIds ⟨qs ++ [row], ids ++ [i], cur⟩
            = currentIds ⟨qs, ids, cur⟩ := rfl
        have hnotact : i ∉ queueIds ⟨qs, ids, cur⟩ ++ currentIds ⟨qs, ids, cur⟩ :=
          fun hmem => hnotin (hsub i hmem)
        refine ⟨?_, ?_, ?_, hc, ?_⟩
        · rw [hqids, hcids]
          have hperm : List.Perm
              ((queueIds ⟨qs, ids, cur⟩ ++ [i]) ++ currentIds ⟨qs, ids, cur⟩)
              (i :: (queueIds ⟨qs, ids, cur⟩ ++ currentIds ⟨qs, ids, cur⟩)) := by
            simpa using (List.perm_append_singleton i (queueIds ⟨qs, ids, cur⟩)).append_right
              (currentIds ⟨qs, ids, cur⟩)
          exact hperm.nodup_iff.mpr (hnd.cons hnotact)
        · intro j hj
          rw [hqids, hcids] at hj
          show j ∈ ids ++ [i]
          rcases List.mem_append.mp hj with hj | hj
          · rcases List.mem_append.mp hj with hj | hj
            · exact List.mem_append.mpr (Or.inl (hsub j (List.mem_append.mpr (Or.inl hj))))
            · exact List.mem_append.mpr (Or.inr hj)
          · exact List.mem_append.mpr (Or.inl (hsub j (List.mem_append.mpr (Or.inr hj))))
        · intro r hr
          rcases List.mem_append.mp hr with hr | hr
          · exact hq r hr
          · rcases List.mem_singleton.mp hr with rfl
            simp [idTruthy, hrid, hie]
        · exact hids.append (by simp) (by
            intro a ha hb
            rcases List.mem_singleton.mp hb with rfl
            exact hnotin ha)

theorem begin_inv (s : QState) (h : QInv s) : QInv (beginItem s) := by
  obtain ⟨qs, ids, cur⟩ := s
  obtain ⟨hnd, hsub, hq, hc, hids⟩ := h
  unfold beginItem
  cases cur with
  | some r => exact ⟨hnd, hsub, hq, hc, hids⟩
  | none =>
    dsimp only
    cases qs with
    | nil => exact ⟨hnd, hsub, hq, hc, hids⟩
    | cons r rest =>
      have hrt : idTruthy r.id = true := hq r (List.mem_cons_self _ _)
      obtain ⟨i, hi⟩ : ∃ i, r.id = some i := by
        cases hr2 : r.id
        · rw [hr2] at hrt; simp [idTruthy] at hrt
        · exact ⟨_, rfl⟩
      have hold : queueIds ⟨r :: rest, ids, none⟩ = i :: queueIds ⟨rest, ids, none⟩ := by
        simp [queueIds, hi]
      have holdc : currentIds ⟨r :: rest, ids, none⟩ = [] := rfl
      have h2 : currentIds ⟨rest, ids, some r⟩ = [i] := by
        simp [currentIds, hi]
      have h1 : queueIds ⟨rest, ids, some r⟩ = queueIds ⟨rest, ids, none⟩ := rfl
      rw [hold, holdc, List.append_nil] at hnd hsub
      refine ⟨?_, ?_, ?_, ?_, hids⟩
      · rw [h1, h2]
        exact (List.perm_append_singleton i (queueIds ⟨rest, ids, none⟩)).nodup_iff.mpr hnd
      · intro j hj
        rw [h1, h2] at hj
        apply hsub
        rcases List.mem_append.mp hj with hj | hj
        · exact List.mem_cons_of_mem _ hj
        · rcases List.mem_singleton.mp hj with rfl
          exact List.mem_cons_self _ _
      · intro r2 hr2
        exact hq r2 (List.mem_cons_of_mem _ hr2)
      · intro r2 hr2
        simp only [Option.some.injEq] at hr2
        rw [← hr2]
        exact hrt

theorem finish_inv (s : QState) (h : QInv s) : QInv (finishItem s) := by
  obtain ⟨qs, ids, cur⟩ := s
  obtain ⟨hnd, hsub, hq, hc, hids⟩ := h
  unfold finishItem
  cases cur with
  | none => exact ⟨hnd, hsub, hq, hc, hids⟩
  | some r =>
    have hrt : idTruthy r.id = true := hc r rfl
    obtain ⟨i, hi⟩ : ∃ i, r.id = some i := by
      cases hr2 : r.id
      · rw [hr2] at hrt; simp [idTruthy] at hrt
      · exact ⟨_, rfl⟩
    have hie : i ≠ "" := by
      rw [hi] at hrt; simpa [idTruthy] using hrt
    show QInv ⟨qs,
      (if idTruthy (if idTruthy r.id then r.id else r.payloadId) then
        ids.erase ((if idTruthy r.id then r.id else r.payloadId).getD "")
       else ids), none⟩
    rw [if_pos hrt, hi,
      if_pos (show idTruthy (some i) = true by simpa [idTruthy] using hie)]
    have holdc : currentIds ⟨qs, ids, some r⟩ = [i] := by simp [currentIds, hi]
    have hq1 : queueIds ⟨qs, ids.erase ((some i).getD ""), none⟩ = queueIds ⟨qs, ids, some r⟩ := rfl
    have hc1 : currentIds ⟨qs, ids.erase ((some i).getD ""), none⟩ = [] := rfl
    rw [holdc] at hnd hsub
    refine ⟨?_, ?_, hq, by simp, ?_⟩
    · rw [hq1, hc1, List.append_nil]
      exact hnd.sublist (List.sublist_append_left _ _)
    · intro j hj
      rw [hq1, hc1, List.append_nil] at hj
      have hmem : j ∈ ids := hsub j (List.mem_append.mpr (Or.inl hj))
      have hne2 : j ≠ i := by
        intro heq
        subst heq
        have hdisj := List.disjoint_of_nodup_append hnd
        exact hdisj hj (List.mem_singleton.mpr rfl)
      show j ∈ ids.erase ((some i).getD "")
      simp only [Option.getD_some]
      exact (List.mem_erase_of_ne hne2).mpr hmem
    · exact hids.erase _

end RealtimeSync
end KwpSync
namespace KwpSync
namespace RealtimeSync

theorem qreach_inv : ∀ s, QReach s → QInv s := by
  intro s h
  induction h with
  | init =>
    refine ⟨by simp [queueIds, currentIds, qInit], ?_, ?_, ?_, by simp [qInit]⟩
    · intro i hi; simp [queueIds, currentIds, qInit] at hi
    · intro r hr; simp [qInit] at hr
    · intro r hr; simp [qInit] at hr
  | step h e ih =>
    cases e with
    | enq row => exact enqueue_inv _ row ih
    | begin => exact begin_inv _ ih
    | finish => exact finish_inv _ ih

/-- C10 — queue dedup invariant: in every reachable consumer state the
pending ids are duplicate-free, an enqueue of an id that is pending or being
handled is a no-op, and neither enqueueing nor starting to handle an item
removes a tracked id (ids are only released when handling finishes). -/
theorem kwp_c10 : ∀ s, QReach s →
    (queueIds s).Nodup
  ∧ (∀ row i, row.id = some i → i ≠ "" →
      (i ∈ queueIds s ∨ (∃ r, s.current = some r ∧ r.id = some i)) →
      enqueue s row = s)
  ∧ (∀ row i, i ∈ s.enqueuedIds → i ∈ (enqueue s row).enqueuedIds)
  ∧ (∀ i, i ∈ s.enqueuedIds → i ∈ (beginItem s).enqueuedIds) := by
  intro s h
  obtain ⟨hnd, hsub, hq, hc, hids⟩ := qreach_inv s h
  refine ⟨?_, ?_, ?_, ?_⟩
  · exact (List.nodup_append.mp hnd).1
  · intro row i hrid hie hact
    have hin : i ∈ s.enqueuedIds := by
      apply hsub
      rcases hact with hact | ⟨r, hr, hrid2⟩
      · exact List.mem_append.mpr (Or.inl hact)
      · refine List.mem_append.mpr (Or.inr ?_)
        unfold currentIds
        rw [hr]
        dsimp only
        rw [hrid2]
        exact List.mem_singleton.mpr rfl
    unfold enqueue
    rw [hrid]
    dsimp only
    rw [if_neg (by simpa using hie), if_pos (List.elem_eq_true_of_mem hin)]
  · intro row i hin
    unfold enqueue
    cases row.id with
    | none => exact hin
    | some j =>
      dsimp only
      by_cases hje : j = ""
      · rw [if_pos hje]; exact hin
      · rw [if_neg hje]
        by_cases hjin : s.enqueuedIds.contains j = true
        · rw [if_pos hjin]; exact hin
        · rw [if_neg hjin]
          exact List.mem_append.mpr (Or.inl hin)
  · intro i hin
    unfold beginItem
    cases s.current with
    | some r => exact hin
    | none =>
      dsimp only
      cases s.queue with
      | nil => exact hin
      | cons r rest => exact hin

/-- Closed instance of `kwp_c10` at the reachable state reached by enqueuing
id "a" and beginning to handle it. -/
theorem kwp_c10_witness :
    (queueIds (qstep (qstep qInit (QEvent.enq ⟨some "a", none⟩)) QEvent.begin)).Nodup
  ∧ (∀ row i, row.id = some i → i ≠ "" →
      (i ∈ queueIds (qstep (qstep qInit (QEvent.enq ⟨some "a", none⟩)) QEvent.begin) ∨
        (∃ r, (qstep (qstep qInit (QEvent.enq ⟨some "a", none⟩)) QEvent.begin).current = some r ∧
          r.id = some i)) →
      enqueue (qstep (qstep qInit (QEvent.enq ⟨some "a", none⟩)) QEvent.begin) row =
        qstep (qstep qInit (QEvent.enq ⟨some "a", none⟩)) QEvent.begin)
  ∧ (∀ row i, i ∈ (qstep (qstep qInit (QEvent.enq ⟨some "a", none⟩)) QEvent.begin).enqueuedIds →
      i ∈ (enqueue (qstep (qstep qInit (QEvent.enq ⟨some "a", none⟩)) QEvent.begin) row).enqueuedIds)
  ∧ (∀ i, i ∈ (qstep (qstep qInit (QEvent.enq ⟨some "a", none⟩)) QEvent.begin).enqueuedIds →
      i ∈ (beginItem (qstep (qstep qInit (QEvent.enq ⟨some "a", none⟩)) QEvent.begin)).enqueuedIds) :=
  kwp_c10 (qstep (qstep qInit (QEvent.enq ⟨some "a", none⟩)) QEvent.begin)
    (QReach.step (QReach.step QReach.init (QEvent.enq ⟨some "a", none⟩)) QEvent.begin)

end RealtimeSync
end KwpSync
namespace KwpSync
namespace RealtimeSync

theorem ensureOrt_projekt {db db' : Db} {plz ort land plzn : Option String}
    {ortTyp : Option Int} {n : Int}
    (h : ensureOrt db plz ort land plzn ortTyp = .ok (n, db')) :
    db'.projekt = db.projekt := by
  unfold ensureOrt at h
  split at h
  · simp at h
  · split at h
    · rw [Except.ok.injEq, Prod.mk.injEq] at h
      rw [← h.2]
    · rw [Except.ok.injEq, Prod.mk.injEq] at h
      rw [← h.2]

theorem ensureAdresse_projekt {db db' : Db} {m : List ColumnMeta} {raw v : JVal}
    {l : String} (h : ensureAdresse db m raw l = .ok (v, db')) :
    db'.projekt = db.projekt := by
  unfold ensureAdresse at h
  split at h
  case h_2 => simp at h
  split at h
  · simp at h
  · split at h
    · simp at h
    · split at h
      · simp at h
      · split at h
        · simp at h
        · split at h
          · rw [Except.ok.injEq, Prod.mk.injEq] at h
            rw [← h.2]
          · split at h
            · simp at h
            · split at h
              · simp at h
              · split at h
                · simp at h
                · split at h
                  · rw [Except.ok.injEq, Prod.mk.injEq] at h
                    rw [← h.2]
                    rfl
                  · split at h
                    · rw [Except.ok.injEq, Prod.mk.injEq] at h
                      rw [← h.2]
                      rfl
                    · split at h
                      · simp at h
                      · split at h
                        · simp at h
                        · rename_i oid db2 heq
                          rw [Except.ok.injEq, Prod.mk.injEq] at h
                          rw [← h.2]
                          exact (ensureOrt_projekt heq : db2.projekt = db.projekt)


/-- The address-resolution phase never touches the `dbo.Projekt` table. -/
theorem directAddresses_projekt {am : List ColumnMeta} {db : Db} {pay : JVal}
    {p r b : JVal} {db3 : Db}
    (h : directAddresses am db pay = .ok (p, r, b, db3)) :
    db3.projekt = db.projekt := by
  unfold directAddresses at h
  split at h
  · exact Except.noConfusion h
  split at h
  · exact Except.noConfusion h
  rename_i pa db1 h1
  split at h
  · exact Except.noConfusion h
  rename_i ra db2 h2
  split at h
  · exact Except.noConfusion h
  rename_i ba db3x h3
  simp only [Except.ok.injEq, Prod.mk.injEq] at h
  obtain ⟨ep, er, eb, ed⟩ := h
  subst ed
  exact (ensureAdresse_projekt h3).trans
    ((ensureAdresse_projekt h2).trans (ensureAdresse_projekt h1))

/-- A validated project payload carries a truthy project number. -/
theorem directValidate_projnr {pm : List ColumnMeta} {pay : JVal} {pd0 : Row}
    (h : directValidate pm pay = .ok pd0) :
    truthy (rget pd0 "ProjNr") = true := by
  unfold directValidate at h
  split at h
  · exact Except.noConfusion h
  split at h
  · exact Except.noConfusion h
  split at h
  · split at h
    · exact Except.noConfusion h
    rename_i hc
    rw [Except.ok.injEq] at h
    subst h
    simp only [Bool.not_eq_true, Bool.not_eq_false'] at hc
    exact hc
  · rw [if_pos (show (!truthy JVal.null) = true by rfl)] at h
    exact Except.noConfusion h

/-- A successful assembly is exactly the timestamp-defaulted payload with the
three resolved address references written in. -/
theorem directAssemble_shape {pm : List ColumnMeta} {pd0 : Row}
    {p r b : JVal} {now : Int} {pd : Row}
    (h : directAssemble pm pd0 p r b now = .ok pd) :
    pd = dateDefaults
      (rset (rset (rset pd0 "ProjAdr" p) "RechAdr" r) "BauHrAdr" b) now := by
  unfold directAssemble at h
  split at h
  · exact Except.noConfusion h
  split at h
  · exact Except.noConfusion h
  split at h
  · exact Except.noConfusion h
  split at h
  · exact Except.noConfusion h
  rw [Except.ok.injEq] at h
  exact h.symm

/-- The timestamp defaulting leaves every non-timestamp column unchanged. -/
theorem rget_dateDefaults (pd : Row) (now : Int) (k : String)
    (h1 : k ≠ "Createdate") (h2 : k ≠ "Editdate") (h3 : k ≠ "ProjAnlage")
    (h4 : k ≠ "AuftragsDatum") :
    rget (dateDefaults pd now) k = rget pd k := by
  simp only [dateDefaults]
  split_ifs <;>
    simp [rget_rset_ne _ _ _ _ h1, rget_rset_ne _ _ _ _ h2,
      rget_rset_ne _ _ _ _ h3, rget_rset_ne _ _ _ _ h4]

/-- A truthy value is never strictly equal to `null`. -/
theorem truthy_beq_null {v : JVal} (h : truthy v = true) :
    (v == JVal.null) = false := by
  cases v with
  | null => exact absurd h (by decide)
  | str s => rfl
  | num n => rfl
  | bool b => rfl
  | date t => rfl
  | obj fs => rfl

/-- The payload-mapping loop is label-independent on success: the label only
feeds error messages. -/
theorem mapGo_label {maps : ColumnMaps} {ak : List String} {l1 l2 : String}
    {entries : List (String × JVal)} {data d : Row}
    (h : mapPayloadGo maps ak l1 entries data = .ok d) :
    mapPayloadGo maps ak l2 entries data = .ok d := by
  induction entries generalizing data with
  | nil => exact h
  | cons kv rest ih =>
    obtain ⟨key, value⟩ := kv
    unfold mapPayloadGo at h ⊢
    split at h
    · rename_i hc
      rw [if_pos hc]
      exact ih h
    rename_i hc
    rw [if_neg hc]
    split at h
    · exact Except.noConfusion h
    rename_i colName hL
    split at h
    · exact Except.noConfusion h
    rename_i hIns
    rw [if_neg hIns]
    split at h
    · exact Except.noConfusion h
    rename_i m hM
    split at h
    · exact Except.noConfusion h
    rename_i v hN
    exact ih h

/-- `mapPayloadToColumns` is label-independent on success. -/
theorem map_label {raw : List (String × JVal)} {cols : List ColumnMeta}
    {ak : List String} {l1 l2 : String} {d : Row}
    (h : mapPayloadToColumns raw cols ak l1 = .ok d) :
    mapPayloadToColumns raw cols ak l2 = .ok d := by
  unfold mapPayloadToColumns at h ⊢
  exact mapGo_label h

/-- A successful `ensureAdresse` returns exactly the mapped payload's
`AdrNrGes` value. -/
theorem ensureAdresse_key {db db' : Db} {m : List ColumnMeta} {raw v : JVal}
    {label : String}
    (h : ensureAdresse db m raw label = .ok (v, db')) :
    ∃ fs data, raw = .obj fs ∧
      mapPayloadToColumns fs m adresseAllowKeys label = .ok data ∧
      v = rget data "AdrNrGes" := by
  unfold ensureAdresse at h
  split at h
  case h_2 => exact Except.noConfusion h
  rename_i fs
  split at h
  · exact Except.noConfusion h
  rename_i extras hE
  split at h
  · exact Except.noConfusion h
  rename_i data hM
  split at h
  · exact Except.noConfusion h
  split at h
  · exact Except.noConfusion h
  split at h
  · rw [Except.ok.injEq, Prod.mk.injEq] at h
    exact ⟨fs, data, rfl, hM, h.1.symm⟩
  split at h
  · exact Except.noConfusion h
  split at h
  · exact Except.noConfusion h
  split at h
  · exact Except.noConfusion h
  split at h
  · rw [Except.ok.injEq, Prod.mk.injEq] at h
    exact ⟨fs, data, rfl, hM, h.1.symm⟩
  split at h
  · rw [Except.ok.injEq, Prod.mk.injEq] at h
    exact ⟨fs, data, rfl, hM, h.1.symm⟩
  split at h
  · exact Except.noConfusion h
  split at h
  · exact Except.noConfusion h
  rw [Except.ok.injEq, Prod.mk.injEq] at h
  exact ⟨fs, data, rfl, hM, h.1.symm⟩

/-- Two successful `ensureAdresse` runs on the same raw address payload and
column set agree on the returned key, whatever the states and labels. -/
theorem ensureAdresse_same {db1 db2 db1' db2' : Db} {m : List ColumnMeta}
    {raw v1 v2 : JVal} {l1 l2 : String}
    (h1 : ensureAdresse db1 m raw l1 = .ok (v1, db1'))
    (h2 : ensureAdresse db2 m raw l2 = .ok (v2, db2')) : v1 = v2 := by
  obtain ⟨fs1, data1, he1, hm1, hv1⟩ := ensureAdresse_key h1
  obtain ⟨fs2, data2, he2, hm2, hv2⟩ := ensureAdresse_key h2
  subst he1
  injection he2 with hfs
  subst hfs
  have h12 : mapPayloadToColumns fs1 m adresseAllowKeys l2 = .ok data1 :=
    @map_label fs1 m adresseAllowKeys l1 l2 data1 hm1
  rw [h12, Except.ok.injEq] at hm2
  subst hm2
  rw [hv1, hv2]

/-- Decomposition of a successful preparation phase: a validated payload, a
successful address resolution, and the assembled row, with the `dbo.Projekt`
table untouched. -/
theorem directPrepare_parts {pm am : List ColumnMeta} {db : Db} {pay : JVal}
    {now : Int} {pd : Row} {db3 : Db}
    (h : directPrepare pm am db pay now = .ok (pd, db3)) :
    ∃ pd0 p r b, directValidate pm pay = .ok pd0 ∧
      directAddresses am db pay = .ok (p, r, b, db3) ∧
      db3.projekt = db.projekt ∧
      pd = dateDefaults
        (rset (rset (rset pd0 "ProjAdr" p) "RechAdr" r) "BauHrAdr" b) now := by
  unfold directPrepare at h
  split at h
  · exact Except.noConfusion h
  rename_i pd0 hV
  split at h
  · exact Except.noConfusion h
  rename_i x p r b db3x hA
  split at h
  · exact Except.noConfusion h
  rename_i pd5 hAs
  rw [Except.ok.injEq, Prod.mk.injEq] at h
  obtain ⟨h1, h2⟩ := h
  subst h2
  exact ⟨pd0, p, r, b, hV, hA, directAddresses_projekt hA,
    h1 ▸ directAssemble_shape hAs⟩

/-- When the billing role defaults to the primary address, the resolution
phase returns the primary key for it. -/
theorem directAddresses_rech {am : List ColumnMeta} {db : Db} {pay : JVal}
    {p r b : JVal} {db3 : Db}
    (hs : rechnungSameDirect pay = true)
    (h : directAddresses am db pay = .ok (p, r, b, db3)) : r = p := by
  unfold directAddresses at h
  split at h
  · exact Except.noConfusion h
  split at h
  · exact Except.noConfusion h
  rename_i pa db1 h1
  split at h
  · exact Except.noConfusion h
  rename_i ra db2 h2
  split at h
  · exact Except.noConfusion h
  rename_i ba db3x h3
  simp only [Except.ok.injEq, Prod.mk.injEq] at h
  obtain ⟨ep, er, eb, ed⟩ := h
  subst ep
  subst er
  rw [show directRechRaw db pay = directBaseRaw db pay from by
    unfold directRechRaw; rw [if_pos hs]] at h2
  exact ensureAdresse_same h2 h1

/-- When the site role defaults to the primary address, the resolution phase
returns the primary key for it. -/
theorem directAddresses_bau {am : List ColumnMeta} {db : Db} {pay : JVal}
    {p r b : JVal} {db3 : Db}
    (hs : bauherrSameDirect pay = true)
    (h : directAddresses am db pay = .ok (p, r, b, db3)) : b = p := by
  unfold directAddresses at h
  split at h
  · exact Except.noConfusion h
  split at h
  · exact Except.noConfusion h
  rename_i pa db1 h1
  split at h
  · exact Except.noConfusion h
  rename_i ra db2 h2
  split at h
  · exact Except.noConfusion h
  rename_i ba db3x h3
  simp only [Except.ok.injEq, Prod.mk.injEq] at h
  obtain ⟨ep, er, eb, ed⟩ := h
  subst ep
  subst eb
  rw [show directBauRaw db pay = directBaseRaw db pay from by
    unfold directBauRaw; rw [if_pos hs]] at h3
  exact ensureAdresse_same h3 h1

/-- Reading the project number back out of the assembled row. -/
theorem rget_assembled_projnr (pd0 : Row) (p r b : JVal) (now : Int) :
    rget (dateDefaults
      (rset (rset (rset pd0 "ProjAdr" p) "RechAdr" r) "BauHrAdr" b) now)
      "ProjNr" = rget pd0 "ProjNr" := by
  rw [rget_dateDefaults _ _ _ (by decide) (by decide) (by decide) (by decide),
    rget_rset_ne _ _ _ _ (by decide), rget_rset_ne _ _ _ _ (by decide),
    rget_rset_ne _ _ _ _ (by decide)]

/-- Reading the primary address reference back out of the assembled row. -/
theorem rget_assembled_projadr (pd0 : Row) (p r b : JVal) (now : Int) :
    rget (dateDefaults
      (rset (rset (rset pd0 "ProjAdr" p) "RechAdr" r) "BauHrAdr" b) now)
      "ProjAdr" = p := by
  rw [rget_dateDefaults _ _ _ (by decide) (by decide) (by decide) (by decide),
    rget_rset_ne _ _ _ _ (by decide), rget_rset_ne _ _ _ _ (by decide),
    rget_rset_self]

/-- Reading the billing address reference back out of the assembled row. -/
theorem rget_assembled_rechadr (pd0 : Row) (p r b : JVal) (now : Int) :
    rget (dateDefaults
      (rset (rset (rset pd0 "ProjAdr" p) "RechAdr" r) "BauHrAdr" b) now)
      "RechAdr" = r := by
  rw [rget_dateDefaults _ _ _ (by decide) (by decide) (by decide) (by decide),
    rget_rset_ne _ _ _ _ (by decide), rget_rset_self]

/-- Reading the site address reference back out of the assembled row. -/
theorem rget_assembled_bauadr (pd0 : Row) (p r b : JVal) (now : Int) :
    rget (dateDefaults
      (rset (rset (rset pd0 "ProjAdr" p) "RechAdr" r) "BauHrAdr" b) now)
      "BauHrAdr" = b := by
  rw [rget_dateDefaults _ _ _ (by decide) (by decide) (by decide) (by decide),
    rget_rset_self]

end RealtimeSync

namespace TemplateSync

/-- A successful template-worker `ensureAdresse` returns exactly the
record's `adrNrGes` key. -/
theorem ensure_key {db db' : Db} {a : AddressRec} {k : String}
    (h : ensureAdresse db (some a) = .ok (k, db')) : a.adrNrGes = some k := by
  dsimp only [ensureAdresse] at h
  split at h
  · exact Except.noConfusion h
  rename_i key hk
  split at h
  · exact Except.noConfusion h
  rename_i ortId db2 hOrt
  split at h
  · rw [Except.ok.injEq, Prod.mk.injEq] at h
    rw [hk, h.1]
  · rw [Except.ok.injEq, Prod.mk.injEq] at h
    rw [hk, h.1]

/-- The template `INSERT ... SELECT` writes the bound project number. -/
theorem templateRow_projnr (t : Row) (p : TParams) :
    rget (templateInsertRow t p) "ProjNr" = .str p.projnr := rfl

/-- The template `INSERT ... SELECT` writes the bound primary reference. -/
theorem templateRow_projadr (t : Row) (p : TParams) :
    rget (templateInsertRow t p) "ProjAdr" = .str p.projAdr := rfl

/-- The template `INSERT ... SELECT` writes the bound billing reference. -/
theorem templateRow_rechadr (t : Row) (p : TParams) :
    rget (templateInsertRow t p) "RechAdr" = .str p.rechAdr := rfl

/-- The template `INSERT ... SELECT` writes the bound site reference. -/
theorem templateRow_bauadr (t : Row) (p : TParams) :
    rget (templateInsertRow t p) "BauHrAdr" = .str p.bauAdr := rfl

/-- Decomposition of a template run that reports `inserted`: the validated
payload, and the appended project row with its bound parameters; roles that
defaulted to the primary address receive the primary key. -/
theorem templateInserted_shape {cfg : Option String} {db : Db} {pay : JVal}
    {now : Int} {pn : String} {db1 : Db}
    (h : insertProjektFromTemplate cfg db pay now = .ok ("inserted", pn, db1)) :
    ∃ v t p rest, templateValidate pay = .ok v ∧ pn = v.projnr ∧
      db1.projekt = rest ++ [templateInsertRow t p] ∧
      p.projnr = v.projnr ∧
      (v.rechnungAddress = some v.baseAddress → p.rechAdr = p.projAdr) ∧
      (v.bauherrAddress = some v.baseAddress → p.bauAdr = p.projAdr) := by
  unfold insertProjektFromTemplate at h
  split at h
  · exact Except.noConfusion h
  rename_i v hv
  split at h
  · rw [Except.ok.injEq, Prod.mk.injEq] at h
    exact absurd h.1 (by decide)
  rename_i hnex
  split at h
  · exact Except.noConfusion h
  rename_i projAdr db1' hA1
  split at h
  · exact Except.noConfusion h
  rename_i rechAdr db2' hA2
  split at h
  · exact Except.noConfusion h
  rename_i bauAdr db3' hA3
  split at h
  · exact Except.noConfusion h
  rename_i t hT
  rw [Except.ok.injEq, Prod.mk.injEq, Prod.mk.injEq] at h
  obtain ⟨-, hpn, hdb⟩ := h
  refine ⟨v, t, templateParams pay v.projnr projAdr rechAdr bauAdr now,
    db3'.projekt, hv, hpn.symm, by rw [← hdb], rfl, ?_, ?_⟩
  · intro hre
    rw [hre] at hA2
    dsimp only at hA2
    have k1 := ensure_key hA1
    have k2 := ensure_key hA2
    rw [k1, Option.some.injEq] at k2
    exact k2.symm
  · intro hba
    rw [hba] at hA3
    dsimp only at hA3
    have k1 := ensure_key hA1
    have k3 := ensure_key hA3
    rw [k1, Option.some.injEq] at k3
    exact k3.symm

end TemplateSync

namespace RealtimeSync

end RealtimeSync
end KwpSync

set_option maxRecDepth 16000

namespace KwpSync
namespace TemplateSync

/-- When `sameAsAdresse` is not strictly `false`, validation copies the base
address into the billing role. -/
theorem templateValidate_rech {pay : JVal} {v : TValid}
    (hv : templateValidate pay = .ok v)
    (hs : templateRechSame pay = true) :
    v.rechnungAddress = some v.baseAddress := by
  unfold templateValidate at hv
  split at hv
  · exact Except.noConfusion hv
  rename_i projnr hp
  split at hv
  · exact Except.noConfusion hv
  rename_i base hb
  split at hv
  · exact Except.noConfusion hv
  rw [Except.ok.injEq] at hv
  subst hv
  dsimp only

/-- When `sameAsAdresse` is not strictly `false`, validation copies the base
address into the site role. -/
theorem templateValidate_bau {pay : JVal} {v : TValid}
    (hv : templateValidate pay = .ok v)
    (hs : templateBauSame pay = true) :
    v.bauherrAddress = some v.baseAddress := by
  unfold templateValidate at hv
  split at hv
  · exact Except.noConfusion hv
  rename_i projnr hp
  split at hv
  · exact Except.noConfusion hv
  rename_i base hb
  split at hv
  · exact Except.noConfusion hv
  rw [Except.ok.injEq] at hv
  subst hv
  dsimp only

/-- The first template run of `tpayW` on `tdb0` reports `inserted` and
returns the recorded state. -/
theorem tdbRun1_spec :
    insertProjektFromTemplate none tdb0 tpayW 0 =
      .ok ("inserted", "P1", tdbRun1) := rfl

end TemplateSync

namespace RealtimeSync

/-- The first direct run of `payC1` on the empty state yields the recorded
result, with status `inserted`. -/
theorem resC1run1_spec :
    insertProjektDirect projektMetaX adrMetaX dbEmptyX payC1 0 =
      .ok resC1run1 := rfl

/-- Preparing `payC7` on the empty state yields the recorded row and state. -/
theorem pdC7_spec :
    directPrepare projektMetaX adrMetaX dbEmptyX payC7 0 = .ok (pdC7, dbC7) := rfl

/-- C7 (amended): in the direct workflow a role inherits the primary address
key exactly when the role-defaulting predicate holds — which requires an
explicit `sameAsAdresse: true` on a present sub-object, not merely the
absence of a disable; in the template workflow the appended project row gives
a role the primary key whenever `sameAsAdresse` is not strictly `false`. -/
theorem kwp_c7_amended (pm am : List ColumnMeta) (db : Db) (pay : JVal)
    (now : Int) (pd : Row) (db3 : Db)
    (h : directPrepare pm am db pay now = .ok (pd, db3))
    (cfg : Option String) (tdb : Db) (tpay : JVal) (tn : Int)
    (pn : String) (tdb1 : Db)
    (ht : TemplateSync.insertProjektFromTemplate cfg tdb tpay tn =
      .ok ("inserted", pn, tdb1)) :
    ((rechnungSameDirect pay = true → rget pd "RechAdr" = rget pd "ProjAdr") ∧
     (bauherrSameDirect pay = true → rget pd "BauHrAdr" = rget pd "ProjAdr")) ∧
    ∃ rest row, tdb1.projekt = rest ++ [row] ∧
      (TemplateSync.templateRechSame tpay = true →
        rget row "RechAdr" = rget row "ProjAdr") ∧
      (TemplateSync.templateBauSame tpay = true →
        rget row "BauHrAdr" = rget row "ProjAdr") := by
  obtain ⟨pd0, p', r', b', hV, hA, hProj, hShape⟩ := directPrepare_parts h
  obtain ⟨v, t, par, rest, hv, hpn, hprj, hpp, hre, hba⟩ :=
    TemplateSync.templateInserted_shape ht
  refine ⟨⟨?_, ?_⟩, rest, TemplateSync.templateInsertRow t par, hprj, ?_, ?_⟩
  · intro hrs
    rw [hShape, rget_assembled_rechadr, rget_assembled_projadr]
    exact directAddresses_rech hrs hA
  · intro hbs
    rw [hShape, rget_assembled_bauadr, rget_assembled_projadr]
    exact directAddresses_bau hbs hA
  · intro hrs
    rw [TemplateSync.templateRow_rechadr, TemplateSync.templateRow_projadr,
      hre (TemplateSync.templateValidate_rech hv hrs)]
  · intro hbs
    rw [TemplateSync.templateRow_bauadr, TemplateSync.templateRow_projadr,
      hba (TemplateSync.templateValidate_bau hv hbs)]

/-- C7 (counterexample): a billing sub-object that omits `sameAsAdresse` —
so it does not explicitly disable the same-as-primary default — still makes
the direct workflow resolve a separate billing address key. -/
theorem kwp_c7_counterexample :
    jget2 payC7 "rechnungAdresse" "sameAsAdresse" = none ∧
    ∃ pd db', directPrepare projektMetaX adrMetaX dbEmptyX payC7 0 = .ok (pd, db') ∧
      rget pd "RechAdr" = .str "Y_RECHADR1" ∧
      rget pd "ProjAdr" = .str "X_PROJADR1" ∧
      rget pd "RechAdr" ≠ rget pd "ProjAdr" := by
  refine ⟨rfl, pdC7, dbC7, rfl, rfl, rfl, ?_⟩
  intro hc
  rw [show rget pdC7 "RechAdr" = JVal.str "Y_RECHADR1" from rfl,
    show rget pdC7 "ProjAdr" = JVal.str "X_PROJADR1" from rfl] at hc
  injection hc with hs
  exact absurd hs (by decide)

/-- Witness for the amended C7 theorem at the concrete fixture payloads. -/
theorem kwp_c7_amended_witness :
    ((rechnungSameDirect payC7 = true → rget pdC7 "RechAdr" = rget pdC7 "ProjAdr") ∧
     (bauherrSameDirect payC7 = true → rget pdC7 "BauHrAdr" = rget pdC7 "ProjAdr")) ∧
    ∃ rest row, TemplateSync.tdbRun1.projekt = rest ++ [row] ∧
      (TemplateSync.templateRechSame TemplateSync.tpayW = true →
        rget row "RechAdr" = rget row "ProjAdr") ∧
      (TemplateSync.templateBauSame TemplateSync.tpayW = true →
        rget row "BauHrAdr" = rget row "ProjAdr") :=
  kwp_c7_amended projektMetaX adrMetaX dbEmptyX payC7 0 pdC7 dbC7 pdC7_spec
    none TemplateSync.tdb0 TemplateSync.tpayW 0 "P1" TemplateSync.tdbRun1
    TemplateSync.tdbRun1_spec

/-- C1 (amended): after a first direct-workflow run that reports `inserted`,
a second run of the same payload on the resulting state either throws (the
address-reference consistency check can fail against a regenerated id) or
reports `exists` with the same project number and an unchanged `dbo.Projekt`
table; the template workflow, whose existence check precedes all address
work, is fully idempotent: the second run returns `exists` with the state
unchanged. -/
theorem kwp_c1_amended (pm am : List ColumnMeta) (db : Db) (pay : JVal)
    (now now2 : Int) (res : DirectResult)
    (h : insertProjektDirect pm am db pay now = .ok res)
    (hs : res.status = "inserted")
    (cfg : Option String) (tdb : Db) (tpay : JVal) (tn tn2 : Int)
    (pn : String) (tdb1 : Db)
    (ht : TemplateSync.insertProjektFromTemplate cfg tdb tpay tn =
      .ok ("inserted", pn, tdb1)) :
    ((∃ e, insertProjektDirect pm am res.db pay now2 = .error e) ∨
     (∃ res2, insertProjektDirect pm am res.db pay now2 = .ok res2 ∧
        res2.status = "exists" ∧ res2.projnr = res.projnr ∧
        res2.db.projekt = res.db.projekt)) ∧
    TemplateSync.insertProjektFromTemplate cfg tdb1 tpay tn2 =
      .ok ("exists", pn, tdb1) := by
  constructor
  · unfold insertProjektDirect at h
    split at h
    · exact Except.noConfusion h
    rename_i pd db3 hP
    split at h
    · rw [Except.ok.injEq] at h
      rw [← h] at hs
      exact absurd (show ("exists" : String) = "inserted" from hs) (by decide)
    rename_i hNE
    rw [Except.ok.injEq] at h
    subst h
    dsimp only
    obtain ⟨pd0, p, r, b, hV, hA, hProj, hShape⟩ := directPrepare_parts hP
    cases hD : directPrepare pm am
        { db3 with projekt := db3.projekt ++ [pd] } pay now2 with
    | error e =>
      exact Or.inl ⟨e, by unfold insertProjektDirect; rw [hD]⟩
    | ok pdb =>
      obtain ⟨pd2, db3'⟩ := pdb
      obtain ⟨pd0', p', r', b', hV', hA', hProj', hShape'⟩ :=
        directPrepare_parts hD
      rw [hV, Except.ok.injEq] at hV'
      subst hV'
      dsimp only at hProj'
      have hpn2 : rget pd2 "ProjNr" = rget pd0 "ProjNr" := by
        rw [hShape', rget_assembled_projnr]
      have hpn1 : rget pd "ProjNr" = rget pd0 "ProjNr" := by
        rw [hShape, rget_assembled_projnr]
      have htr : truthy (rget pd0 "ProjNr") = true := directValidate_projnr hV
      have hEx : projExists db3' (rget pd2 "ProjNr") = true := by
        unfold projExists
        rw [hpn2, Bool.and_eq_true]
        constructor
        · rw [truthy_beq_null htr]
          rfl
        · rw [hProj', List.any_append, Bool.or_eq_true]
          right
          simp only [List.any_cons, List.any_nil, Bool.or_false]
          rw [hpn1]
          exact JVal.beq_refl _
      refine Or.inr ⟨⟨"exists", rget pd2 "ProjNr", db3'⟩, ?_, rfl, ?_, ?_⟩
      · unfold insertProjektDirect
        rw [hD]
        dsimp only
        rw [if_pos hEx]
      · dsimp only
        rw [hpn2, hpn1]
      · dsimp only
        exact hProj'
  · obtain ⟨v, t, par, rest, hv, hpn, hprj, hpp, -, -⟩ :=
      TemplateSync.templateInserted_shape ht
    unfold TemplateSync.insertProjektFromTemplate
    rw [hv]
    dsimp only
    have hcond : (tdb1.projekt.any
        (fun row => rget row "ProjNr" == JVal.str v.projnr)) = true := by
      rw [hprj, List.any_append, Bool.or_eq_true]
      right
      simp only [List.any_cons, List.any_nil, Bool.or_false]
      rw [TemplateSync.templateRow_projnr, hpp]
      exact JVal.beq_refl _
    rw [hpn, if_pos hcond]

/-- C1 (counterexample): a payload that pins `ProjAdr` to the id generated on
the first run makes the second run throw the `ProjAdr` mismatch error instead
of returning `exists`. -/
theorem kwp_c1_counterexample :
    ∃ r1, insertProjektDirect projektMetaX adrMetaX dbEmptyX payC1 0 = .ok r1 ∧
      r1.status = "inserted" ∧
      insertProjektDirect projektMetaX adrMetaX r1.db payC1 1 =
        .error (.mismatch "ProjAdr") :=
  ⟨resC1run1, resC1run1_spec, rfl, rfl⟩

/-- Witness for the amended C1 theorem at the concrete fixture payloads. -/
theorem kwp_c1_amended_witness :
    ((∃ e, insertProjektDirect projektMetaX adrMetaX resC1run1.db payC1 1 =
        .error e) ∨
     (∃ res2, insertProjektDirect projektMetaX adrMetaX resC1run1.db payC1 1 =
        .ok res2 ∧ res2.status = "exists" ∧ res2.projnr = resC1run1.projnr ∧
        res2.db.projekt = resC1run1.db.projekt)) ∧
    TemplateSync.insertProjektFromTemplate none TemplateSync.tdbRun1
      TemplateSync.tpayW 1 = .ok ("exists", "P1", TemplateSync.tdbRun1) :=
  kwp_c1_amended projektMetaX adrMetaX dbEmptyX payC1 0 1 resC1run1
    resC1run1_spec rfl none TemplateSync.tdb0 TemplateSync.tpayW 0 1 "P1"
    TemplateSync.tdbRun1 TemplateSync.tdbRun1_spec

end RealtimeSync
end KwpSync
